import Mathlib

/-
Verification development for the SpotstatsAi matchup-scoring pipeline.

Shallow embedding of the two builder scripts:
  * namespace V1 embeds src/build_player_stats_with_matchups.py
  * namespace V2 embeds src/scripts/build_player_stats_with_matchups.py

Modelling conventions:
  * Python floats are modelled as rationals; round() is modelled exactly as
    round-half-to-even on the rational value.
  * JSON objects coming from upstream feeds are modelled as structures whose
    nullable / possibly-absent numeric fields are Option rationals, already
    parsed; dict.get with a default becomes Option.getD.
  * Python dicts are association lists with an overwriting insert that keeps
    insertion order, as CPython does; dict comprehensions and loops that fill
    a dict become folds of that insert.
  * Python list.sort is a stable sort; it is modelled with insertionSort,
    which is stable, hence produces the identical list.
  * The float operation var ** 0.5 (square root) is irrational in general,
    so the per-run square-root function is a parameter sq of the pipeline;
    every theorem below holds for every choice of sq unless it explicitly
    assumes the defining properties of a square root at the relevant point.
-/

namespace SpotStats

/-- JSON-like values appearing in the emitted player records. -/
inductive Val where
  | null : Val
  | num (q : ℚ) : Val
  | str (s : String) : Val
deriving DecidableEq

/-- Lookup in an association list, first match wins (keys are unique in all
dicts built below, since they are only built with dictInsert). -/
def dlookup {α : Type} : List (String × α) → String → Option α
  | [], _ => none
  | p :: rest, k => if p.1 = k then some p.2 else dlookup rest k

/-- Python dict assignment d[k] = v: overwrite in place if the key exists,
else append, keeping insertion order. -/
def dictInsert {α : Type} (d : List (String × α)) (k : String) (v : α) :
    List (String × α) :=
  if (dlookup d k).isSome then
    d.map (fun p => if p.1 = k then (k, v) else p)
  else
    d ++ [(k, v)]

/-- Fold a list of key-value pairs into a dict, later pairs overwriting. -/
def foldInserts {α : Type} (l : List (String × α)) : List (String × α) :=
  l.foldl (fun d p => dictInsert d p.1 p.2) []

/-- clamp(v, lo, hi) = max(lo, min(hi, v)) from both scripts. -/
def clampQ (v lo hi : ℚ) : ℚ := max lo (min hi v)

/-- Integer clamp, for the already rounded confidence value. -/
def clampZ (v lo hi : ℤ) : ℤ := max lo (min hi v)

/-- Python round to the nearest integer, ties to even. -/
def pyRound (x : ℚ) : ℤ :=
  let f := ⌊x⌋
  let r := x - f
  if r < 1/2 then f
  else if 1/2 < r then f + 1
  else if f % 2 = 0 then f else f + 1

/-- Python round(x, k): round to k decimal digits, ties to even. -/
def roundTo (x : ℚ) (k : ℕ) : ℚ :=
  ((pyRound (x * 10 ^ k) : ℚ)) / 10 ^ k

/-- Python enumerate(l, start=n). -/
def enum1 {α : Type} : ℕ → List α → List (ℕ × α)
  | _, [] => []
  | n, a :: as => (n, a) :: enum1 (n + 1) as

/-- Python str.strip(): drop whitespace from both ends. -/
def pyStrip (s : String) : String :=
  String.mk (((s.data.dropWhile Char.isWhitespace).reverse.dropWhile
    Char.isWhitespace).reverse)

/-- Python truthiness for an optional string: None and the empty string are
falsy. -/
def truthy (o : Option String) : Option String :=
  match o with
  | some s => if s = "" then none else some s
  | none => none

/-- Null-or-string JSON value. -/
def optStr : Option String → Val
  | some s => Val.str s
  | none => Val.null

/-- Null-or-number JSON value. -/
def optNum : Option ℚ → Val
  | some q => Val.num q
  | none => Val.null

/-- Null-or-rank JSON value. -/
def optRank : Option ℕ → Val
  | some n => Val.num n
  | none => Val.null

/-- safe_div from the scripts variant: num / den if den else 0.0. -/
def safe_div (n d : ℚ) : ℚ := if d = 0 then 0 else n / d

namespace V1

/- Embedding of src/build_player_stats_with_matchups.py. -/

/-- Raw JSON field that should hold a number: either a value float() accepts
(a number or a numeric string), carried as the parsed rational, or a value
float() rejects with TypeError / ValueError. -/
inductive RawVal where
  | parsable (q : ℚ) : RawVal
  | unparsable : RawVal
deriving DecidableEq

/-- One row of the TeamSeasonStats feed, the fields the function reads. -/
structure TeamStat where
  Team : Option String
  OpponentPointsPerGame : Option RawVal
  PointsAllowedPerGame : Option RawVal
deriving DecidableEq

/-- raw = t.get with the PointsAllowedPerGame fallback when the first key
gives None. -/
def rawMetric (t : TeamStat) : Option RawVal :=
  match t.OpponentPointsPerGame with
  | some v => some v
  | none => t.PointsAllowedPerGame

/-- val = float(raw) when that succeeds, otherwise the row is skipped. -/
def parsedMetric (t : TeamStat) : Option ℚ :=
  match rawMetric t with
  | some (RawVal.parsable q) => some q
  | _ => none

/-- The metrics list: rows with a truthy team name and a parsable metric. -/
def metricsOf (ts : List TeamStat) : List (String × ℚ) :=
  ts.filterMap (fun t =>
    match truthy t.Team with
    | some tm => (parsedMetric t).map (fun q => (tm, q))
    | none => none)

/-- metrics.sort(key=lambda x: x[1]) - a stable sort by the metric. -/
def sortMetrics (l : List (String × ℚ)) : List (String × ℚ) :=
  l.insertionSort (fun a b => a.2 ≤ b.2)

/-- Python min over a nonempty list (0 for the empty list, which the code
guards against). -/
def vminOf : List ℚ → ℚ
  | [] => 0
  | v :: vs => vs.foldl min v

/-- Python max over a nonempty list (0 for the empty list, guarded). -/
def vmaxOf : List ℚ → ℚ
  | [] => 0
  | v :: vs => vs.foldl max v

/-- spread = max(v_max - v_min, 1e-6). -/
def spreadOf (values : List ℚ) : ℚ :=
  max (vmaxOf values - vminOf values) (1e-6 : ℚ)

/-- Tier thresholds on the 0-100 score. -/
def tierOf (score : ℚ) : String :=
  if score ≥ 66 then "red"
  else if score ≥ 33 then "yellow"
  else "green"

/-- One defense table entry. -/
structure DefEntry where
  def_metric : ℚ
  rank : ℕ
  score_0_100 : ℚ
  tier : String
deriving DecidableEq

/-- normalized = 1 - (val - v_min) / spread; score = round(normalized*100, 2);
tier from the thresholds. -/
def mkDefEntry (val : ℚ) (rank : ℕ) (vmin spread : ℚ) : DefEntry :=
  let normalized := 1 - (val - vmin) / spread
  let score := roundTo (normalized * 100) 2
  { def_metric := val, rank := rank, score_0_100 := score, tier := tierOf score }

/-- The rows written into defense_table, in loop order with ranks from 1. -/
def tableRows (metrics : List (String × ℚ)) : List (String × DefEntry) :=
  let sorted := sortMetrics metrics
  let values := sorted.map (fun p => p.2)
  (enum1 1 sorted).map (fun p => (p.2.1, mkDefEntry p.2.2 p.1 (vminOf values) (spreadOf values)))

/-- The defense table from an already parsed metrics list; empty metrics give
the empty table. -/
def defense_table_of_metrics (metrics : List (String × ℚ)) :
    List (String × DefEntry) :=
  if metrics = [] then [] else foldInserts (tableRows metrics)

/-- build_team_defense_table from the source. -/
def build_team_defense_table (ts : List TeamStat) : List (String × DefEntry) :=
  defense_table_of_metrics (metricsOf ts)

/-- Shift of the metric field of a table entry, used to state the
shift-invariance of the normalization. -/
def shiftEntry (c : ℚ) (e : DefEntry) : DefEntry :=
  { e with def_metric := e.def_metric + c }

/-- One game of schedule.json for the run date. -/
structure GameV1 where
  home_team : Option String
  away_team : Option String
deriving DecidableEq

/-- The opponent map loop: skip games missing either side, else record both
directions. -/
def opponent_map_of_games (games : List GameV1) : List (String × String) :=
  games.foldl (fun m g =>
    match truthy g.home_team, truthy g.away_team with
    | some h, some a => dictInsert (dictInsert m h a) a h
    | _, _ => m) []

/-- normalize_team_code with the empty TEAM_ALIASES of the source. -/
def normalize_team_code (code : String) : String :=
  if code = "" then "" else code

/-- One row of the PlayerSeasonStatsBySeason feed, the fields read here. -/
structure PlayerRaw where
  Name : Option String
  Games : Option ℚ
  Minutes : Option ℚ
  Points : Option ℚ
  Rebounds : Option ℚ
  Assists : Option ℚ
  Steals : Option ℚ
  BlockedShots : Option ℚ
  Turnovers : Option ℚ
  ThreePointAttempts : Option ℚ
  ThreePointersMade : Option ℚ
  FieldGoalsAttempted : Option ℚ
  FieldGoalsMade : Option ℚ
  FreeThrowAttempts : Option ℚ
  FreeThrowsMade : Option ℚ
  UsageRate : Option ℚ
deriving DecidableEq

/-- The local pct helper: 0.0 for a nonpositive attempt count, else the made
over attempted ratio rounded to 3 digits. -/
def pctOf (made att : ℚ) : ℚ :=
  if att ≤ 0 then 0 else roundTo (made / att) 3

/-- The stats dict for a player found in the feed, in source key order. -/
def statsOfPlayer (p : PlayerRaw) : List (String × Val) :=
  [ ( "games", Val.num (p.Games.getD 0)),
    ( "min", Val.num (p.Minutes.getD 0)),
    ( "pts", Val.num (p.Points.getD 0)),
    ( "reb", Val.num (p.Rebounds.getD 0)),
    ( "ast", Val.num (p.Assists.getD 0)),
    ( "stl", Val.num (p.Steals.getD 0)),
    ( "blk", Val.num (p.BlockedShots.getD 0)),
    ( "tov", Val.num (p.Turnovers.getD 0)),
    ( "fg3a", Val.num (p.ThreePointAttempts.getD 0)),
    ( "fg3_pct", Val.num (pctOf (p.ThreePointersMade.getD 0) (p.ThreePointAttempts.getD 0))),
    ( "fga", Val.num (p.FieldGoalsAttempted.getD 0)),
    ( "fg_pct", Val.num (pctOf (p.FieldGoalsMade.getD 0) (p.FieldGoalsAttempted.getD 0))),
    ( "fta", Val.num (p.FreeThrowAttempts.getD 0)),
    ( "ft_pct", Val.num (pctOf (p.FreeThrowsMade.getD 0) (p.FreeThrowAttempts.getD 0))),
    ( "usage", Val.num (p.UsageRate.getD 0)) ]

/-- The fallback zero stats dict for a player missing from the feed. -/
def fallbackStats : List (String × Val) :=
  [ ( "games", Val.num 0),
    ( "min", Val.num 0),
    ( "pts", Val.num 0),
    ( "reb", Val.num 0),
    ( "ast", Val.num 0),
    ( "stl", Val.num 0),
    ( "blk", Val.num 0),
    ( "tov", Val.num 0),
    ( "fg3a", Val.num 0),
    ( "fg3_pct", Val.num 0),
    ( "fga", Val.num 0),
    ( "fg_pct", Val.num 0),
    ( "fta", Val.num 0),
    ( "ft_pct", Val.num 0),
    ( "usage", Val.num 0) ]

/-- out = dict(stats); out.update with team, season and the matchup fields:
the update keys are fresh, so the dict is the concatenation. -/
def outRecord (stats : List (String × Val)) (team_code : String)
    (opp_team : Option String) (dinfo : Option DefEntry) :
    List (String × Val) :=
  stats ++
  [ ( "team", Val.str team_code),
    ( "season", Val.num 2026),
    ( "opponent_team", optStr opp_team),
    ( "opponent_defense_score", optNum (dinfo.map (fun d => d.score_0_100))),
    ( "opponent_defense_tier", optStr (dinfo.map (fun d => d.tier))) ]

/-- player_lookup keyed by truthy Name, later rows overwriting. -/
def playerLookupV1 (raw : List PlayerRaw) : List (String × PlayerRaw) :=
  foldInserts (raw.filterMap (fun p =>
    match truthy p.Name with
    | some n => some (n, p)
    | none => none))

/-- The record built for one roster player of one team: opp_team and its
normalization and defense_info as the per-team lets of the loop, the stats
dict by presence in player_lookup, then the final update. -/
def outFor (player_lookup : List (String × PlayerRaw))
    (defense_table : List (String × DefEntry))
    (opponent_map : List (String × String)) (tc nm : String) :
    List (String × Val) :=
  let opp_team := dlookup opponent_map tc
  let norm_opp := (truthy opp_team).map normalize_team_code
  let dinfo := norm_opp.bind (fun o => dlookup defense_table o)
  let stats :=
    match dlookup player_lookup nm with
    | none => fallbackStats
    | some p => statsOfPlayer p
  outRecord stats tc opp_team dinfo

/-- build_player_stats from the source: the nested roster loops filling the
final dict (the unused norm_team binding of the source is dropped). -/
def build_player_stats (rosters : List (String × List String))
    (raw : List PlayerRaw) (defense_table : List (String × DefEntry))
    (opponent_map : List (String × String)) :
    List (String × List (String × Val)) :=
  let player_lookup := playerLookupV1 raw
  rosters.foldl (fun final tp =>
    tp.2.foldl (fun acc name =>
      dictInsert acc name (outFor player_lookup defense_table opponent_map tp.1 name)) final) []

end V1

namespace V2

/- Embedding of src/scripts/build_player_stats_with_matchups.py. -/

/-- One row of the PlayerSeasonStats feed; Name is subscripted, the rest read
through get with defaults. -/
structure SeasonRaw where
  Name : String
  Games : Option ℚ
  Points : Option ℚ
  Rebounds : Option ℚ
  Assists : Option ℚ
  Minutes : Option ℚ
  Steals : Option ℚ
  BlockedShots : Option ℚ
  Turnovers : Option ℚ
  UsageRate : Option ℚ
  Possessions : Option ℚ
deriving DecidableEq

/-- One row of the PlayerGameStatsBySeason feed. -/
structure GameLog where
  Name : String
  Date : Option String
  Points : Option ℚ
  Rebounds : Option ℚ
  Assists : Option ℚ
deriving DecidableEq

/-- One game of GamesByDate; both team codes are subscripted. -/
structure Game2 where
  HomeTeam : String
  AwayTeam : String
deriving DecidableEq

/-- One row of the Standings feed, the fields read here. -/
structure Standing where
  Key : String
  Wins : Option ℕ
  Losses : Option ℕ
  Percentage : Option ℚ
  StreakDescription : Option String
  PointsFor : Option ℚ
  PointsAgainst : Option ℚ
  ConferenceRank : Option ℚ
  DivisionRank : Option ℚ
deriving DecidableEq

/-- The team_info entry built per standings row. -/
structure TeamInfo where
  wins : ℕ
  losses : ℕ
  pct : ℚ
  record_str : String
  streak : String
  pf : Option ℚ
  pa : Option ℚ
  conf_rank : Option ℚ
  div_rank : Option ℚ
deriving DecidableEq

/-- season_by_name: a dict comprehension keyed by the stripped Name. -/
def seasonMap (season_stats : List SeasonRaw) : List (String × SeasonRaw) :=
  foldInserts (season_stats.map (fun p => (pyStrip p.Name, p)))

/-- Append one game log row under its stripped player name. -/
def appendLog (m : List (String × List GameLog)) (g : GameLog) :
    List (String × List GameLog) :=
  let k := pyStrip g.Name
  dictInsert m k ((dlookup m k).getD [] ++ [g])

/-- logs_by_name: group rows by stripped name, then stable-sort per player by
the Date string (default empty). -/
def logsByName (gs : List GameLog) : List (String × List GameLog) :=
  (gs.foldl appendLog []).map
    (fun p => (p.1, p.2.insertionSort (fun a b => a.Date.getD "" ≤ b.Date.getD "")))

/-- The opponents dict for today: both directions per game. -/
def opponentsMap (gs : List Game2) : List (String × String) :=
  gs.foldl (fun m g =>
    dictInsert (dictInsert m g.HomeTeam g.AwayTeam) g.AwayTeam g.HomeTeam) []

/-- The team_info entry: wins and losses default 0, Percentage falls back to
safe_div, StreakDescription or the N/A default. -/
def mkTeamInfo (t : Standing) : TeamInfo :=
  let wins := t.Wins.getD 0
  let losses := t.Losses.getD 0
  let pct := t.Percentage.getD (safe_div wins (wins + losses))
  { wins := wins, losses := losses, pct := pct,
    record_str := toString wins ++ "-" ++ toString losses,
    streak :=
      match t.StreakDescription with
      | some s => if s = "" then "N/A" else s
      | none => "N/A",
    pf := t.PointsFor, pa := t.PointsAgainst,
    conf_rank := t.ConferenceRank, div_rank := t.DivisionRank }

/-- team_info keyed by Key. -/
def teamInfoMap (standings : List Standing) : List (String × TeamInfo) :=
  foldInserts (standings.map (fun t => (t.Key, mkTeamInfo t)))

/-- sorted(standings, key=PointsAgainst default 999), a stable sort. -/
def sortedDef (standings : List Standing) : List Standing :=
  standings.insertionSort
    (fun a b => a.PointsAgainst.getD 999 ≤ b.PointsAgainst.getD 999)

/-- def_rank: position in the PointsAgainst order, from 1. -/
def defRankMap (standings : List Standing) : List (String × ℕ) :=
  foldInserts ((enum1 1 (sortedDef standings)).map (fun p => (p.2.Key, p.1)))

/-- avg_pf = safe_div(sum of PointsFor defaults, len(standings) or 1). -/
def avg_pf (standings : List Standing) : ℚ :=
  safe_div (standings.foldl (fun s t => s + t.PointsFor.getD 0) 0)
    (if standings.length = 0 then 1 else (standings.length : ℚ))

/-- g = games or 1. -/
def gOf (sr : SeasonRaw) : ℚ :=
  let games := sr.Games.getD 0
  if games = 0 then 1 else games

/-- One season per-game average: safe_div(total default 0, g). -/
def perGame (sr : SeasonRaw) (total : Option ℚ) : ℚ :=
  safe_div (total.getD 0) (gOf sr)

/-- logs then last5 = logs[-5:] if logs else []. -/
def last5Of (logsB : List (String × List GameLog)) (name : String) :
    List GameLog :=
  let logs := (dlookup logsB name).getD []
  logs.drop (logs.length - 5)

/-- The per-stat values of the window, each read with default 0. -/
def fieldVals (f : GameLog → Option ℚ) (l5 : List GameLog) : List ℚ :=
  l5.map (fun l => (f l).getD 0)

/-- Average of the recent window: safe_div(sum, len). -/
def l5avg (vals : List ℚ) : ℚ :=
  safe_div (vals.foldl (fun s v => s + v) 0) (vals.length : ℚ)

/-- The nested std helper: 0.0 on the empty list, else the square root of the
population variance - the float power 0.5 is the sq parameter. -/
def stdOf (sq : ℚ → ℚ) (values : List ℚ) (mean : ℚ) : ℚ :=
  match values with
  | [] => 0
  | _ => sq ((values.foldl (fun s v => s + (v - mean) ^ 2) 0) / (values.length : ℚ))

/-- The nested cons helper: default 0.5 for a nonpositive mean, else the
clamped complement of the coefficient of variation. -/
def consOf (std_val mean_val : ℚ) : ℚ :=
  if mean_val ≤ 0 then 0.5 else clampQ (1 - std_val / mean_val) 0 1

/-- Last-5 average with the season fallback of the empty-window branch. -/
def l5stat (last5 : List GameLog) (f : GameLog → Option ℚ) (season_val : ℚ) : ℚ :=
  if last5 = [] then season_val else l5avg (fieldVals f last5)

/-- Consistency of one stat, 0.5 in the empty-window branch. -/
def consStat (sq : ℚ → ℚ) (last5 : List GameLog) (f : GameLog → Option ℚ) : ℚ :=
  if last5 = [] then 0.5
  else consOf (stdOf sq (fieldVals f last5) (l5avg (fieldVals f last5)))
    (l5avg (fieldVals f last5))

/-- The nested trend_label helper. -/
def trendLabel (last5_val season_val : ℚ) : String :=
  if season_val ≤ 0 then "flat"
  else if (last5_val - season_val) / season_val > 0.15 then "up"
  else if (last5_val - season_val) / season_val < -0.15 then "down"
  else "flat"

/-- def_component: (dr - 1) / 29.0 for a truthy rank, else the neutral 0.5;
the divisor is the literal 29.0 of the source. -/
def defComponent (dr : Option ℕ) : ℚ :=
  match dr with
  | some r => if r = 0 then 0.5 else ((r : ℚ) - 1) / 29
  | none => 0.5

/-- pace component: guarded by truthiness of the opponent PointsFor and of
avg_pf, then clamped to [0.5, 1.5] and shifted down by 0.5. -/
def paceComponent (pf : Option ℚ) (apf : ℚ) : ℚ :=
  match pf with
  | some p =>
    if p ≠ 0 ∧ apf ≠ 0 then (clampQ (p / apf) 0.5 1.5 - 0.5) / 1 else 0.5
  | none => 0.5

/-- win_pct = opp_rec.get with default 0.5; the entry always has pct. -/
def winPctOf (o : Option TeamInfo) : ℚ :=
  match o with
  | some i => i.pct
  | none => 0.5

/-- smi = clamp(0.4 def + 0.3 pace + 0.3 win, 0, 1). -/
def smiOf (dr : Option ℕ) (pf : Option ℚ) (apf wpct : ℚ) : ℚ :=
  clampQ (0.4 * defComponent dr + 0.3 * paceComponent pf apf
    + 0.3 * (1 - wpct)) 0 1

/-- Usage adjustment of the confidence score. -/
def usageAdj (usage : ℚ) : ℚ :=
  if usage ≥ 28 then 15 else if usage ≥ 22 then 8 else 0

/-- Minutes adjustment of the confidence score. -/
def minutesAdj (season_min : ℚ) : ℚ :=
  if season_min ≥ 32 then 12 else if season_min ≥ 26 then 6 else 0

/-- Matchup adjustment of the confidence score. -/
def smiAdj (smi : ℚ) : ℚ :=
  if smi ≥ 0.7 then 10 else if smi ≥ 0.55 then 5
  else if smi ≤ 0.35 then -8 else 0

/-- Points-trend adjustment of the confidence score. -/
def trendAdj (t : String) : ℚ :=
  if t = "up" then 6 else if t = "down" then -6 else 0

/-- Average-consistency adjustment of the confidence score. -/
def consAdj (avg_cons : ℚ) : ℚ :=
  if avg_cons ≥ 0.75 then 6 else if avg_cons ≤ 0.4 then -6 else 0

/-- confidence before round and clamp: 50 plus the five adjustments. -/
def conf0 (usage season_min smi : ℚ) (trend_pts : String) (avg_cons : ℚ) : ℚ :=
  50 + usageAdj usage + minutesAdj season_min + smiAdj smi
    + trendAdj trend_pts + consAdj avg_cons

/-- confidence = clamp(round(confidence), 0, 100). -/
def confFinal (usage season_min smi : ℚ) (trend_pts : String)
    (avg_cons : ℚ) : ℤ :=
  clampZ (pyRound (conf0 usage season_min smi trend_pts avg_cons)) 0 100

/-- The recommendation tag chain on the final confidence. -/
def recTagOf (c : ℤ) : String :=
  if c ≥ 80 then "AUTO-GREEN"
  else if c ≥ 60 then "Value Play"
  else if c ≥ 40 then "Volatile"
  else "Avoid"

/-- The record for a roster player missing from the season feed, exactly the
literal dict of the source. -/
def missingRecord (team_code : String) : List (String × Val) :=
  [ ( "team", Val.str team_code),
    ( "season", Val.num 2025),
    ( "games", Val.num 0),
    ( "min", Val.num 0),
    ( "pts", Val.num 0),
    ( "reb", Val.num 0),
    ( "ast", Val.num 0),
    ( "stl", Val.num 0),
    ( "blk", Val.num 0),
    ( "tov", Val.num 0),
    ( "usage", Val.num 0),
    ( "pace", Val.null),
    ( "opponent", Val.null),
    ( "def_rank", Val.null),
    ( "team_record", Val.null),
    ( "opp_record", Val.null),
    ( "opp_streak", Val.null),
    ( "smi", Val.num 0.5),
    ( "confidence", Val.num 50),
    ( "rec_tag", Val.str "Unknown") ]

/-- The record for a roster player found in the season feed: the whole
present branch of the loop body, ending in the literal dict of the source. -/
def presentRecord (sq : ℚ → ℚ) (logsB : List (String × List GameLog))
    (opponents : List (String × String)) (tInfo : List (String × TeamInfo))
    (dRank : List (String × ℕ)) (apf : ℚ)
    (team_code name : String) (sr : SeasonRaw) : List (String × Val) :=
  let games : ℚ := sr.Games.getD 0
  let season_pts := perGame sr sr.Points
  let season_reb := perGame sr sr.Rebounds
  let season_ast := perGame sr sr.Assists
  let season_min := perGame sr sr.Minutes
  let season_stl := perGame sr sr.Steals
  let season_blk := perGame sr sr.BlockedShots
  let season_tov := perGame sr sr.Turnovers
  let usage := sr.UsageRate.getD 0
  let poss := sr.Possessions
  let last5 := last5Of logsB name
  let l5_pts := l5stat last5 (fun l => l.Points) season_pts
  let l5_reb := l5stat last5 (fun l => l.Rebounds) season_reb
  let l5_ast := l5stat last5 (fun l => l.Assists) season_ast
  let cons_pts := consStat sq last5 (fun l => l.Points)
  let cons_reb := consStat sq last5 (fun l => l.Rebounds)
  let cons_ast := consStat sq last5 (fun l => l.Assists)
  let trend_pts := trendLabel l5_pts season_pts
  let trend_reb := trendLabel l5_reb season_reb
  let trend_ast := trendLabel l5_ast season_ast
  let opp_team := dlookup opponents team_code
  let team_rec := dlookup tInfo team_code
  let opp_rec := (truthy opp_team).bind (fun o => dlookup tInfo o)
  let dr := (truthy opp_team).bind (fun o => dlookup dRank o)
  let smi := smiOf dr (opp_rec.bind (fun i => i.pf)) apf (winPctOf opp_rec)
  let avg_cons := (cons_pts + cons_reb + cons_ast) / 3
  let confidence := confFinal usage season_min smi trend_pts avg_cons
  let rec_tag := recTagOf confidence
  [ ( "team", Val.str team_code),
    ( "season", Val.num 2025),
    ( "games", Val.num games),
    ( "min", Val.num season_min),
    ( "pts", Val.num season_pts),
    ( "reb", Val.num season_reb),
    ( "ast", Val.num season_ast),
    ( "stl", Val.num season_stl),
    ( "blk", Val.num season_blk),
    ( "tov", Val.num season_tov),
    ( "l5_pts", Val.num l5_pts),
    ( "l5_reb", Val.num l5_reb),
    ( "l5_ast", Val.num l5_ast),
    ( "trend_pts", Val.str trend_pts),
    ( "trend_reb", Val.str trend_reb),
    ( "trend_ast", Val.str trend_ast),
    ( "cons_pts", Val.num cons_pts),
    ( "cons_reb", Val.num cons_reb),
    ( "cons_ast", Val.num cons_ast),
    ( "usage", Val.num usage),
    ( "pace", optNum poss),
    ( "smi", Val.num smi),
    ( "confidence", Val.num (confidence : ℚ)),
    ( "rec_tag", Val.str rec_tag),
    ( "opponent", optStr opp_team),
    ( "def_rank", optRank dr),
    ( "team_record", optStr (team_rec.map (fun i => i.record_str))),
    ( "team_win_pct", optNum (team_rec.map (fun i => i.pct))),
    ( "opp_record", optStr (opp_rec.map (fun i => i.record_str))),
    ( "opp_win_pct", optNum (opp_rec.map (fun i => i.pct))),
    ( "opp_streak", optStr (opp_rec.map (fun i => i.streak))),
    ( "opp_points_for", optNum (opp_rec.bind (fun i => i.pf))),
    ( "opp_points_against", optNum (opp_rec.bind (fun i => i.pa))),
    ( "opp_conf_rank", optNum (opp_rec.bind (fun i => i.conf_rank))),
    ( "opp_div_rank", optNum (opp_rec.bind (fun i => i.div_rank))) ]

/-- The record built for one roster player of one team: the missing branch
when the name is absent from season_by_name, else the present branch. -/
def recordFor (sq : ℚ → ℚ) (sbn : List (String × SeasonRaw))
    (logsB : List (String × List GameLog))
    (opponents : List (String × String)) (tInfo : List (String × TeamInfo))
    (dRank : List (String × ℕ)) (apf : ℚ) (tc nm : String) :
    List (String × Val) :=
  match dlookup sbn nm with
  | none => missingRecord tc
  | some sr => presentRecord sq logsB opponents tInfo dRank apf tc nm sr

/-- The whole main build: lookups once up front, then the nested roster
loops filling the final dict. -/
def buildFinal (sq : ℚ → ℚ) (rosters : List (String × List String))
    (season_stats : List SeasonRaw) (game_logs : List GameLog)
    (todays_games : List Game2) (standings : List Standing) :
    List (String × List (String × Val)) :=
  let sbn := seasonMap season_stats
  let logsB := logsByName game_logs
  let opponents := opponentsMap todays_games
  let tInfo := teamInfoMap standings
  let dRank := defRankMap standings
  let apf := avg_pf standings
  rosters.foldl (fun final tp =>
    tp.2.foldl (fun acc name =>
      dictInsert acc name
        (recordFor sq sbn logsB opponents tInfo dRank apf tp.1 name)) final) []

/-- The smi value of a record, as a function of the precomputed lookup
tables and the team code; definitionally the smi let-chain of the loop. -/
def recSmi (opponents : List (String × String)) (tInfo : List (String × TeamInfo))
    (dRank : List (String × ℕ)) (apf : ℚ) (team_code : String) : ℚ :=
  let opp_team := dlookup opponents team_code
  let opp_rec := (truthy opp_team).bind (fun o => dlookup tInfo o)
  let dr := (truthy opp_team).bind (fun o => dlookup dRank o)
  smiOf dr (opp_rec.bind (fun i => i.pf)) apf (winPctOf opp_rec)

/-- The final confidence of a present-branch record, as a function of its
inputs; definitionally the confidence let-chain of the loop. -/
def recConfidence (sq : ℚ → ℚ) (logsB : List (String × List GameLog))
    (opponents : List (String × String)) (tInfo : List (String × TeamInfo))
    (dRank : List (String × ℕ)) (apf : ℚ) (team_code name : String)
    (sr : SeasonRaw) : ℤ :=
  confFinal (sr.UsageRate.getD 0) (perGame sr sr.Minutes)
    (recSmi opponents tInfo dRank apf team_code)
    (trendLabel
      (l5stat (last5Of logsB name) (fun l => l.Points) (perGame sr sr.Points))
      (perGame sr sr.Points))
    ((consStat sq (last5Of logsB name) (fun l => l.Points)
      + consStat sq (last5Of logsB name) (fun l => l.Rebounds)
      + consStat sq (last5Of logsB name) (fun l => l.Assists)) / 3)

/-- The key list of a present-branch record, in source order. -/
def presentKeys : List String :=
  [ "team", "season", "games", "min", "pts", "reb", "ast", "stl", "blk",
    "tov", "l5_pts", "l5_reb", "l5_ast", "trend_pts", "trend_reb",
    "trend_ast", "cons_pts", "cons_reb", "cons_ast", "usage", "pace",
    "smi", "confidence", "rec_tag", "opponent", "def_rank", "team_record",
    "team_win_pct", "opp_record", "opp_win_pct", "opp_streak",
    "opp_points_for", "opp_points_against", "opp_conf_rank", "opp_div_rank" ]

/-- The key list of a missing-player record, in source order. -/
def missingKeys : List String :=
  [ "team", "season", "games", "min", "pts", "reb", "ast", "stl", "blk",
    "tov", "usage", "pace", "opponent", "def_rank", "team_record",
    "opp_record", "opp_streak", "smi", "confidence", "rec_tag" ]

/-- Modelled from the spec: the recommendation threshold table of sections
4.3 and 8 - confidence at least 80 gives AUTO-GREEN, at least 60 gives
Value Play, at least 40 gives Volatile, else Avoid. -/
def recTagSpec (c : ℤ) : String :=
  if 80 ≤ c then "AUTO-GREEN"
  else if 60 ≤ c then "Value Play"
  else if 40 ≤ c then "Volatile"
  else "Avoid"

/-- Modelled from the spec: the SMI formula of section 4.3 as worded there,
with def_component = (rank - 1) / (N - 1) over the N ranked teams, the pace
ratio clamped to [0.5, 1.5] and renormalized, and win_component one minus
the opponent win percentage. -/
def smiSpec (rank : Option ℕ) (nTeams : ℕ) (pf : Option ℚ) (apf wpct : ℚ) : ℚ :=
  let defc : ℚ :=
    match rank with
    | some r => ((r : ℚ) - 1) / ((nTeams : ℚ) - 1)
    | none => 0.5
  let pacec : ℚ :=
    match pf with
    | some p => clampQ (p / apf) 0.5 1.5 - 0.5
    | none => 0.5
  clampQ (0.4 * defc + 0.3 * pacec + 0.3 * (1 - wpct)) 0 1

end V2

/- Small concrete inputs used to exercise the pipeline on closed runs. -/

/-- Sample season row for a tracked player. -/
def srAlice : V2.SeasonRaw :=
  { Name := "Alice", Games := some 1, Points := some 10, Rebounds := some 4,
    Assists := some 2, Minutes := some 20, Steals := none,
    BlockedShots := none, Turnovers := none, UsageRate := none,
    Possessions := none }

/-- Sample season row for the player of the two-team standings run. -/
def srPlayerP : V2.SeasonRaw :=
  { Name := "P", Games := some 1, Points := some 10, Rebounds := some 4,
    Assists := some 2, Minutes := some 20, Steals := none,
    BlockedShots := none, Turnovers := none, UsageRate := none,
    Possessions := none }

/-- Standings with exactly two ranked teams. -/
def standingsTwo : List V2.Standing :=
  [ { Key := "AAA", Wins := some 1, Losses := some 1,
      Percentage := some (1/2), StreakDescription := none,
      PointsFor := some 100, PointsAgainst := some 100,
      ConferenceRank := none, DivisionRank := none },
    { Key := "BBB", Wins := some 1, Losses := some 1,
      Percentage := some (1/2), StreakDescription := none,
      PointsFor := some 100, PointsAgainst := some 110,
      ConferenceRank := none, DivisionRank := none } ]

/-- Todays single game between the two sample teams. -/
def gamesOne : List V2.Game2 := [{ HomeTeam := "AAA", AwayTeam := "BBB" }]

/-- Todays single game not involving the sample roster team. -/
def gamesMia : List V2.Game2 := [{ HomeTeam := "MIA", AwayTeam := "NYK" }]

end SpotStats

namespace SpotStats

/- Generic lemmas about the rounding, clamping and dict models. -/

theorem pyRound_intCast (n : ℤ) : pyRound (n : ℚ) = n := by
  simp [pyRound]

theorem pyRound_nonneg {x : ℚ} (h : 0 ≤ x) : 0 ≤ pyRound x := by
  have hf : (0 : ℤ) ≤ ⌊x⌋ := Int.le_floor.mpr (by exact_mod_cast h)
  unfold pyRound
  dsimp only
  split_ifs <;> omega

theorem pyRound_le_of_le {x : ℚ} {n : ℤ} (h : x ≤ (n : ℚ)) : pyRound x ≤ n := by
  have hfn : ⌊x⌋ ≤ n := by
    have h2 := Int.floor_le_floor h
    simpa using h2
  have hkey : ¬ (x - (⌊x⌋ : ℚ) < 1/2) → ⌊x⌋ + 1 ≤ n := by
    intro hr
    rcases eq_or_lt_of_le hfn with he | hl
    · exfalso
      have hx0 : x - (⌊x⌋ : ℚ) ≤ 0 := by
        rw [he]
        linarith
      have hx1 : (1/2 : ℚ) ≤ x - (⌊x⌋ : ℚ) := le_of_not_lt hr
      linarith
    · omega
  unfold pyRound
  dsimp only
  split_ifs with h1 h2 h3
  · exact hfn
  · exact hkey h1
  · exact hfn
  · exact hkey h1

theorem roundTo_nonneg {x : ℚ} (k : ℕ) (h : 0 ≤ x) : 0 ≤ roundTo x k := by
  unfold roundTo
  have h1 : (0 : ℤ) ≤ pyRound (x * 10 ^ k) := pyRound_nonneg (by positivity)
  have h2 : (0 : ℚ) ≤ (pyRound (x * 10 ^ k) : ℚ) := by exact_mod_cast h1
  positivity

theorem roundTo_le_100 {x : ℚ} (k : ℕ) (h : x ≤ 100) : roundTo x k ≤ 100 := by
  have h1 : x * 10 ^ k ≤ ((100 * 10 ^ k : ℤ) : ℚ) := by
    push_cast
    have hp : (0 : ℚ) ≤ 10 ^ k := by positivity
    nlinarith
  have h2 := pyRound_le_of_le h1
  unfold roundTo
  rw [div_le_iff₀ (by positivity)]
  calc (pyRound (x * 10 ^ k) : ℚ) ≤ ((100 * 10 ^ k : ℤ) : ℚ) := by exact_mod_cast h2
  _ = 100 * 10 ^ k := by push_cast; ring

theorem le_clampQ (v lo hi : ℚ) : lo ≤ clampQ v lo hi := le_max_left _ _

theorem clampQ_le {v lo hi : ℚ} (h : lo ≤ hi) : clampQ v lo hi ≤ hi :=
  max_le h (min_le_left _ _)

theorem clampQ_eq_of_mem {v lo hi : ℚ} (h1 : lo ≤ v) (h2 : v ≤ hi) :
    clampQ v lo hi = v := by
  unfold clampQ
  rw [min_eq_right h2, max_eq_right h1]

theorem dlookup_nil {α : Type} (k : String) :
    dlookup ([] : List (String × α)) k = none := rfl

theorem dlookup_cons {α : Type} (p : String × α) (rest : List (String × α))
    (k : String) :
    dlookup (p :: rest) k = if p.1 = k then some p.2 else dlookup rest k := rfl

theorem dlookup_map_overwrite {α : Type} {d : List (String × α)} {k : String}
    (v : α) (h : (dlookup d k).isSome) :
    dlookup (d.map (fun p => if p.1 = k then (k, v) else p)) k = some v := by
  induction d with
  | nil => simp [dlookup_nil] at h
  | cons p rest ih =>
    simp only [List.map_cons]
    by_cases hp : p.1 = k
    · rw [if_pos hp]
      simp [dlookup_cons]
    · rw [if_neg hp, dlookup_cons, if_neg hp]
      apply ih
      rw [dlookup_cons, if_neg hp] at h
      exact h

theorem dlookup_append_single {α : Type} {d : List (String × α)} {k : String}
    (v : α) (h : dlookup d k = none) :
    dlookup (d ++ [(k, v)]) k = some v := by
  induction d with
  | nil => simp [dlookup_cons]
  | cons p rest ih =>
    rw [dlookup_cons] at h
    by_cases hp : p.1 = k
    · rw [if_pos hp] at h
      cases h
    · rw [if_neg hp] at h
      rw [List.cons_append, dlookup_cons, if_neg hp]
      exact ih h

theorem dlookup_dictInsert_self {α : Type} (d : List (String × α)) (k : String)
    (v : α) : dlookup (dictInsert d k v) k = some v := by
  unfold dictInsert
  split_ifs with h
  · exact dlookup_map_overwrite v h
  · exact dlookup_append_single v (by
      cases hd : dlookup d k with
      | none => rfl
      | some w => rw [hd] at h; simp at h)

theorem dlookup_map_overwrite_ne {α : Type} {k k2 : String} (v : α)
    (h : k2 ≠ k) :
    ∀ d : List (String × α),
    dlookup (d.map (fun p => if p.1 = k then (k, v) else p)) k2 = dlookup d k2 := by
  intro d
  induction d with
  | nil => rfl
  | cons p rest ih =>
    simp only [List.map_cons]
    by_cases hp : p.1 = k
    · have hp2 : ¬ p.1 = k2 := by
        rw [hp]
        exact Ne.symm h
      rw [if_pos hp, dlookup_cons, dlookup_cons, if_neg hp2,
        if_neg (show ¬ ((k, v).1 = k2) from Ne.symm h)]
      exact ih
    · rw [if_neg hp, dlookup_cons, dlookup_cons]
      by_cases hp2 : p.1 = k2
      · rw [if_pos hp2, if_pos hp2]
      · rw [if_neg hp2, if_neg hp2]
        exact ih

theorem dlookup_append_single_ne {α : Type} {k k2 : String} (v : α)
    (h : k2 ≠ k) :
    ∀ d : List (String × α), dlookup (d ++ [(k, v)]) k2 = dlookup d k2 := by
  intro d
  induction d with
  | nil =>
    show dlookup [(k, v)] k2 = none
    rw [dlookup_cons, if_neg (show ¬ ((k, v).1 = k2) from Ne.symm h), dlookup_nil]
  | cons p rest ih =>
    rw [List.cons_append, dlookup_cons, dlookup_cons]
    by_cases hp : p.1 = k2
    · rw [if_pos hp, if_pos hp]
    · rw [if_neg hp, if_neg hp]
      exact ih

theorem dlookup_dictInsert_ne {α : Type} {d : List (String × α)} {k k2 : String}
    (v : α) (h : k2 ≠ k) :
    dlookup (dictInsert d k v) k2 = dlookup d k2 := by
  unfold dictInsert
  split_ifs with hs
  · exact dlookup_map_overwrite_ne v h d
  · exact dlookup_append_single_ne v h d

theorem dlookup_dictInsert_cases {α : Type} {d : List (String × α)}
    {k k2 : String} {v w : α}
    (h : dlookup (dictInsert d k v) k2 = some w) :
    (k2 = k ∧ w = v) ∨ dlookup d k2 = some w := by
  by_cases hk : k2 = k
  · subst hk
    rw [dlookup_dictInsert_self] at h
    exact Or.inl ⟨rfl, (Option.some_injective _ h).symm⟩
  · rw [dlookup_dictInsert_ne v hk] at h
    exact Or.inr h

theorem dlookup_dictInsert_isSome {α : Type} {d : List (String × α)}
    {k2 : String} (k : String) (v : α) (h : (dlookup d k2).isSome) :
    (dlookup (dictInsert d k v) k2).isSome := by
  by_cases hk : k2 = k
  · subst hk
    rw [dlookup_dictInsert_self]
    rfl
  · rw [dlookup_dictInsert_ne v hk]
    exact h

theorem dlookup_foldInserts_aux_some {α : Type} {k : String} {w : α} :
    ∀ (l : List (String × α)) (d : List (String × α)),
    dlookup (l.foldl (fun d p => dictInsert d p.1 p.2) d) k = some w →
    (k, w) ∈ l ∨ dlookup d k = some w := by
  intro l
  induction l with
  | nil => intro d h; exact Or.inr h
  | cons p rest ih =>
    intro d h
    rcases ih (dictInsert d p.1 p.2) h with hmem | hlk
    · exact Or.inl (List.mem_cons_of_mem _ hmem)
    · rcases dlookup_dictInsert_cases hlk with ⟨hk, hw⟩ | hold
      · left
        subst hk hw
        exact List.mem_cons_self _ _
      · exact Or.inr hold

theorem dlookup_foldInserts_some {α : Type} {l : List (String × α)}
    {k : String} {w : α} (h : dlookup (foldInserts l) k = some w) :
    (k, w) ∈ l := by
  rcases dlookup_foldInserts_aux_some l [] h with hm | hl
  · exact hm
  · simp [dlookup] at hl

theorem dlookup_foldInserts_aux_isSome {α : Type} {k : String} :
    ∀ (l : List (String × α)) (d : List (String × α)),
    ((dlookup d k).isSome ∨ ∃ v, (k, v) ∈ l) →
    (dlookup (l.foldl (fun d p => dictInsert d p.1 p.2) d) k).isSome := by
  intro l
  induction l with
  | nil =>
    intro d h
    rcases h with h | ⟨v, hv⟩
    · exact h
    · simp at hv
  | cons p rest ih =>
    intro d h
    apply ih
    rcases h with h | ⟨v, hv⟩
    · exact Or.inl (dlookup_dictInsert_isSome _ _ h)
    · rcases List.mem_cons.mp hv with he | hm
      · left
        rw [← he]
        rw [dlookup_dictInsert_self]
        rfl
      · exact Or.inr ⟨v, hm⟩

theorem dlookup_foldInserts_isSome {α : Type} {l : List (String × α)}
    {k : String} (h : ∃ v, (k, v) ∈ l) :
    (dlookup (foldInserts l) k).isSome :=
  dlookup_foldInserts_aux_isSome l [] (Or.inr h)

/- Sum helpers for constant windows. -/

theorem foldl_add_all_eq {c : ℚ} :
    ∀ (vals : List ℚ) (a : ℚ), (∀ v ∈ vals, v = c) →
    vals.foldl (fun s v => s + v) a = a + vals.length * c := by
  intro vals
  induction vals with
  | nil => intro a _; simp
  | cons v vs ih =>
    intro a h
    have hv : v = c := h v (List.mem_cons_self _ _)
    have hrest : ∀ u ∈ vs, u = c := fun u hu => h u (List.mem_cons_of_mem _ hu)
    simp only [List.foldl_cons, List.length_cons]
    rw [ih (a + v) hrest, hv]
    push_cast
    ring

theorem foldl_sqdiff_all_eq {c : ℚ} :
    ∀ (vals : List ℚ) (a : ℚ), (∀ v ∈ vals, v = c) →
    vals.foldl (fun s v => s + (v - c) ^ 2) a = a := by
  intro vals
  induction vals with
  | nil => intro a _; rfl
  | cons v vs ih =>
    intro a h
    have hv : v = c := h v (List.mem_cons_self _ _)
    have hrest : ∀ u ∈ vs, u = c := fun u hu => h u (List.mem_cons_of_mem _ hu)
    simp only [List.foldl_cons]
    rw [hv, sub_self]
    rw [show a + (0 : ℚ) ^ 2 = a from by ring]
    exact ih a hrest

/-- C5: the trend label is the guarded sign test on the relative delta: for
a positive season average it is up exactly when the delta ratio exceeds
0.15, down exactly when it is below -0.15, flat otherwise; the boundary
0.15 itself is flat; a nonpositive season average always gives flat. -/
theorem C5_theorem (r s : ℚ) :
    (s ≤ 0 → V2.trendLabel r s = "flat")
    ∧ (0 < s →
        (V2.trendLabel r s = "up" ↔ (r - s) / s > 0.15)
        ∧ (V2.trendLabel r s = "down" ↔ (r - s) / s < -0.15)
        ∧ (V2.trendLabel r s = "flat" ↔
            (-0.15 ≤ (r - s) / s ∧ (r - s) / s ≤ 0.15))
        ∧ ((r - s) / s = 0.15 → V2.trendLabel r s = "flat")) := by
  unfold V2.trendLabel
  constructor
  · intro h
    rw [if_pos h]
  · intro hs
    rw [if_neg (not_le.mpr hs)]
    split_ifs with h1 h2
    · refine ⟨⟨fun _ => h1, fun _ => rfl⟩,
        ⟨fun h => absurd h (by decide), fun h => absurd h1 (by linarith)⟩,
        ⟨fun h => absurd h (by decide), fun hp => absurd h1 (not_lt.mpr hp.2)⟩,
        fun he => absurd h1 (by rw [he]; exact lt_irrefl _)⟩
    · refine ⟨⟨fun h => absurd h (by decide), fun h => absurd h h1⟩,
        ⟨fun _ => h2, fun _ => rfl⟩,
        ⟨fun h => absurd h (by decide), fun hp => absurd h2 (not_lt.mpr hp.1)⟩,
        fun he => absurd h2 (by rw [he]; norm_num)⟩
    · refine ⟨⟨fun h => absurd h (by decide), fun h => absurd h h1⟩,
        ⟨fun h => absurd h (by decide), fun h => absurd h h2⟩,
        ⟨fun _ => ⟨not_lt.mp h2, not_lt.mp h1⟩, fun _ => rfl⟩,
        fun _ => rfl⟩

/-- C5 witness: at recent 23 over season 20 the delta ratio is exactly 0.15
and the label is flat. -/
theorem C5_witness : V2.trendLabel 23 20 = "flat" := by
  have h := (C5_theorem 23 20).2 (by norm_num)
  exact h.2.2.2 (by norm_num)

/-- C6: the consistency score is the clamped complement of the coefficient
of variation for a positive window mean, always lies in [0, 1] (both at the
cons helper and at the per-stat consStat wrapper), defaults to 0.5 for a
nonpositive mean, and equals exactly 1 on a constant window of positive
value, given that the square-root model sends 0 to 0. -/
theorem C6_theorem (sq : ℚ → ℚ) (s m c : ℚ) (last5 : List V2.GameLog)
    (f : V2.GameLog → Option ℚ) :
    (0 < m → V2.consOf s m = clampQ (1 - s / m) 0 1)
    ∧ (0 ≤ V2.consOf s m ∧ V2.consOf s m ≤ 1)
    ∧ (m ≤ 0 → V2.consOf s m = 0.5)
    ∧ (0 ≤ V2.consStat sq last5 f ∧ V2.consStat sq last5 f ≤ 1)
    ∧ (sq 0 = 0 → last5 ≠ [] → (∀ l ∈ last5, (f l).getD 0 = c) → 0 < c →
        V2.consStat sq last5 f = 1) := by
  have hbounds : ∀ s2 m2 : ℚ, 0 ≤ V2.consOf s2 m2 ∧ V2.consOf s2 m2 ≤ 1 := by
    intro s2 m2
    unfold V2.consOf
    split_ifs with h
    · norm_num
    · exact ⟨le_clampQ _ _ _, clampQ_le (by norm_num)⟩
  refine ⟨?_, hbounds s m, ?_, ?_, ?_⟩
  · intro h
    unfold V2.consOf
    rw [if_neg (not_le.mpr h)]
  · intro h
    unfold V2.consOf
    rw [if_pos h]
  · unfold V2.consStat
    split_ifs with h
    · norm_num
    · exact hbounds _ _
  · intro hsq hne hall hc
    unfold V2.consStat
    rw [if_neg hne]
    have hvals : ∀ v ∈ V2.fieldVals f last5, v = c := by
      intro v hv
      rcases List.mem_map.mp hv with ⟨l, hl, he⟩
      rw [← he]
      exact hall l hl
    have hlen : (V2.fieldVals f last5).length = last5.length := by
      unfold V2.fieldVals
      exact List.length_map _ _
    have hn : last5.length ≠ 0 := fun h0 => hne (List.length_eq_zero.mp h0)
    have havg : V2.l5avg (V2.fieldVals f last5) = c := by
      unfold V2.l5avg safe_div
      rw [foldl_add_all_eq _ 0 hvals, hlen]
      rw [if_neg (by exact_mod_cast hn)]
      field_simp
    have hstd : V2.stdOf sq (V2.fieldVals f last5) c = 0 := by
      unfold V2.stdOf
      cases hfv : V2.fieldVals f last5 with
      | nil =>
        rfl
      | cons v vs =>
        have hz : (v :: vs).foldl (fun s v => s + (v - c) ^ 2) 0 = 0 := by
          apply foldl_sqdiff_all_eq
          intro u hu
          apply hvals
          rw [hfv]
          exact hu
        rw [hz, zero_div, hsq]
    rw [havg, hstd]
    unfold V2.consOf
    rw [if_neg (not_le.mpr hc)]
    unfold clampQ
    rw [zero_div, sub_zero]
    norm_num

/-- C6 witness: a constant window of three games of 3 points has
consistency exactly 1 under the identity square-root model at variance 0. -/
theorem C6_witness :
    V2.consStat id [⟨ "g", none, some 3, none, none⟩] (fun l => l.Points) = 1 := by
  have h := (C6_theorem id 0 0 3 [⟨ "g", none, some 3, none, none⟩]
    (fun l => l.Points)).2.2.2.2
  apply h rfl
  · intro hx
    cases hx
  · intro l hl
    rcases List.mem_singleton.mp hl with rfl
    rfl
  · norm_num


/- Min / max fold lemmas for the defense table bounds. -/

theorem foldl_min_le_init : ∀ (vs : List ℚ) (a : ℚ), vs.foldl min a ≤ a := by
  intro vs
  induction vs with
  | nil => intro a; exact le_refl a
  | cons v vs ih =>
    intro a
    calc (v :: vs).foldl min a = vs.foldl min (min a v) := rfl
    _ ≤ min a v := ih (min a v)
    _ ≤ a := min_le_left _ _

theorem foldl_min_le_mem : ∀ (vs : List ℚ) (a v : ℚ), v ∈ vs → vs.foldl min a ≤ v := by
  intro vs
  induction vs with
  | nil => intro a v hv; cases hv
  | cons u us ih =>
    intro a v hv
    rcases List.mem_cons.mp hv with he | hm
    · subst he
      calc (v :: us).foldl min a = us.foldl min (min a v) := rfl
      _ ≤ min a v := foldl_min_le_init us _
      _ ≤ v := min_le_right _ _
    · exact ih (min a u) v hm

theorem foldl_le_max_init : ∀ (vs : List ℚ) (a : ℚ), a ≤ vs.foldl max a := by
  intro vs
  induction vs with
  | nil => intro a; exact le_refl a
  | cons v vs ih =>
    intro a
    calc a ≤ max a v := le_max_left _ _
    _ ≤ vs.foldl max (max a v) := ih (max a v)
    _ = (v :: vs).foldl max a := rfl

theorem foldl_mem_le_max : ∀ (vs : List ℚ) (a v : ℚ), v ∈ vs → v ≤ vs.foldl max a := by
  intro vs
  induction vs with
  | nil => intro a v hv; cases hv
  | cons u us ih =>
    intro a v hv
    rcases List.mem_cons.mp hv with he | hm
    · subst he
      calc v ≤ max a v := le_max_right _ _
      _ ≤ us.foldl max (max a v) := foldl_le_max_init us _
      _ = (v :: us).foldl max a := rfl
    · exact ih (max a u) v hm

theorem vminOf_le_mem {values : List ℚ} {v : ℚ} (h : v ∈ values) :
    V1.vminOf values ≤ v := by
  cases values with
  | nil => cases h
  | cons v0 vs =>
    rcases List.mem_cons.mp h with he | hm
    · subst he
      exact foldl_min_le_init vs v
    · exact foldl_min_le_mem vs v0 v hm

theorem le_vmaxOf_mem {values : List ℚ} {v : ℚ} (h : v ∈ values) :
    v ≤ V1.vmaxOf values := by
  cases values with
  | nil => cases h
  | cons v0 vs =>
    rcases List.mem_cons.mp h with he | hm
    · subst he
      exact foldl_le_max_init vs v
    · exact foldl_mem_le_max vs v0 v hm

theorem spreadOf_pos (values : List ℚ) : 0 < V1.spreadOf values :=
  lt_of_lt_of_le (by norm_num) (le_max_right _ _)

theorem sub_le_spreadOf {values : List ℚ} {v : ℚ} (h : v ∈ values) :
    v - V1.vminOf values ≤ V1.spreadOf values :=
  le_trans (by
    have := le_vmaxOf_mem h
    linarith) (le_max_left _ _)

theorem foldl_min_all_eq {c : ℚ} :
    ∀ (vs : List ℚ) (a : ℚ), (∀ v ∈ vs, v = c) → a = c → vs.foldl min a = c := by
  intro vs
  induction vs with
  | nil => intro a _ ha; exact ha
  | cons v us ih =>
    intro a h ha
    have hv : v = c := h v (List.mem_cons_self _ _)
    apply ih (min a v) (fun u hu => h u (List.mem_cons_of_mem _ hu))
    rw [hv, ha, min_self]

theorem foldl_max_all_eq {c : ℚ} :
    ∀ (vs : List ℚ) (a : ℚ), (∀ v ∈ vs, v = c) → a = c → vs.foldl max a = c := by
  intro vs
  induction vs with
  | nil => intro a _ ha; exact ha
  | cons v us ih =>
    intro a h ha
    have hv : v = c := h v (List.mem_cons_self _ _)
    apply ih (max a v) (fun u hu => h u (List.mem_cons_of_mem _ hu))
    rw [hv, ha, max_self]

theorem vminOf_all_eq {values : List ℚ} {c : ℚ} (hne : values ≠ [])
    (h : ∀ v ∈ values, v = c) : V1.vminOf values = c := by
  cases values with
  | nil => exact absurd rfl hne
  | cons v vs =>
    exact foldl_min_all_eq vs v (fun u hu => h u (List.mem_cons_of_mem _ hu))
      (h v (List.mem_cons_self _ _))

theorem vmaxOf_all_eq {values : List ℚ} {c : ℚ} (hne : values ≠ [])
    (h : ∀ v ∈ values, v = c) : V1.vmaxOf values = c := by
  cases values with
  | nil => exact absurd rfl hne
  | cons v vs =>
    exact foldl_max_all_eq vs v (fun u hu => h u (List.mem_cons_of_mem _ hu))
      (h v (List.mem_cons_self _ _))

/- enum1 membership lemmas. -/

theorem mem_enum1 {α : Type} :
    ∀ {l : List α} {n i : ℕ} {a : α}, (i, a) ∈ enum1 n l → a ∈ l := by
  intro l
  induction l with
  | nil => intro n i a h; cases h
  | cons b bs ih =>
    intro n i a h
    rcases List.mem_cons.mp h with he | hm
    · have : a = b := congrArg Prod.snd he
      subst this
      exact List.mem_cons_self _ _
    · exact List.mem_cons_of_mem _ (ih hm)

theorem exists_mem_enum1 {α : Type} :
    ∀ {l : List α} {a : α}, a ∈ l → ∀ n : ℕ, ∃ i, (i, a) ∈ enum1 n l := by
  intro l
  induction l with
  | nil => intro a h; cases h
  | cons b bs ih =>
    intro a h n
    rcases List.mem_cons.mp h with he | hm
    · subst he
      exact ⟨n, List.mem_cons_self _ _⟩
    · rcases ih hm (n + 1) with ⟨i, hi⟩
      exact ⟨i, List.mem_cons_of_mem _ hi⟩

/- Shape of the defense table entries. -/

theorem mem_tableRows {metrics : List (String × ℚ)} {tm : String}
    {e : V1.DefEntry} (h : (tm, e) ∈ V1.tableRows metrics) :
    ∃ i v, (tm, v) ∈ V1.sortMetrics metrics ∧
      e = V1.mkDefEntry v i
        (V1.vminOf ((V1.sortMetrics metrics).map (fun p => p.2)))
        (V1.spreadOf ((V1.sortMetrics metrics).map (fun p => p.2))) := by
  unfold V1.tableRows at h
  rcases List.mem_map.mp h with ⟨q, hq, he⟩
  rcases q with ⟨i, tmv⟩
  rcases tmv with ⟨tm2, v⟩
  have h1 : tm2 = tm := congrArg Prod.fst he
  have h2 : V1.mkDefEntry v i
      (V1.vminOf ((V1.sortMetrics metrics).map (fun p => p.2)))
      (V1.spreadOf ((V1.sortMetrics metrics).map (fun p => p.2))) = e :=
    congrArg Prod.snd he
  subst h1
  exact ⟨i, v, mem_enum1 hq, h2.symm⟩

theorem defense_lookup_shape {metrics : List (String × ℚ)} {tm : String}
    {e : V1.DefEntry}
    (h : dlookup (V1.defense_table_of_metrics metrics) tm = some e) :
    ∃ i v, (tm, v) ∈ V1.sortMetrics metrics ∧
      e = V1.mkDefEntry v i
        (V1.vminOf ((V1.sortMetrics metrics).map (fun p => p.2)))
        (V1.spreadOf ((V1.sortMetrics metrics).map (fun p => p.2))) := by
  unfold V1.defense_table_of_metrics at h
  split_ifs at h with hm
  · rw [dlookup_nil] at h
    cases h
  · exact mem_tableRows (dlookup_foldInserts_some h)

theorem mkDefEntry_score_mem {values : List ℚ} {v : ℚ} (h : v ∈ values)
    (i : ℕ) :
    0 ≤ (V1.mkDefEntry v i (V1.vminOf values) (V1.spreadOf values)).score_0_100
    ∧ (V1.mkDefEntry v i (V1.vminOf values) (V1.spreadOf values)).score_0_100 ≤ 100 := by
  have hmin := vminOf_le_mem h
  have hsub := sub_le_spreadOf h
  have hpos := spreadOf_pos values
  have hq0 : 0 ≤ (v - V1.vminOf values) / V1.spreadOf values :=
    div_nonneg (by linarith) (le_of_lt hpos)
  have hq1 : (v - V1.vminOf values) / V1.spreadOf values ≤ 1 :=
    (div_le_one hpos).mpr hsub
  have h0 : 0 ≤ (1 - (v - V1.vminOf values) / V1.spreadOf values) * 100 := by
    nlinarith
  have h100 : (1 - (v - V1.vminOf values) / V1.spreadOf values) * 100 ≤ 100 := by
    nlinarith
  exact ⟨roundTo_nonneg 2 h0, roundTo_le_100 2 h100⟩

theorem tierOf_spec (s : ℚ) :
    (V1.tierOf s = "green" ∨ V1.tierOf s = "yellow" ∨ V1.tierOf s = "red")
    ∧ (66 ≤ s → V1.tierOf s = "red")
    ∧ (33 ≤ s ∧ s < 66 → V1.tierOf s = "yellow")
    ∧ (s < 33 → V1.tierOf s = "green") := by
  unfold V1.tierOf
  split_ifs with h1 h2
  · exact ⟨Or.inr (Or.inr rfl), fun _ => rfl,
      fun hp => absurd h1 (not_le.mpr hp.2),
      fun hp => absurd h1 (not_le.mpr (by linarith))⟩
  · exact ⟨Or.inr (Or.inl rfl), fun hc => absurd hc h1, fun _ => rfl,
      fun hp => absurd h2 (not_le.mpr hp)⟩
  · exact ⟨Or.inl rfl, fun hc => absurd hc h1,
      fun hp => absurd hp.1 h2, fun _ => rfl⟩

theorem defense_lookup_source {ts : List V1.TeamStat} {tm : String}
    {e : V1.DefEntry}
    (h : dlookup (V1.build_team_defense_table ts) tm = some e) :
    ∃ t ∈ ts, truthy t.Team = some tm ∧ (V1.parsedMetric t).isSome := by
  unfold V1.build_team_defense_table at h
  rcases defense_lookup_shape h with ⟨i, v, hmem, _⟩
  have hmet : (tm, v) ∈ V1.metricsOf ts :=
    (List.perm_insertionSort _ (V1.metricsOf ts)).mem_iff.mp hmem
  rcases List.mem_filterMap.mp hmet with ⟨t, ht, hf⟩
  refine ⟨t, ht, ?_⟩
  cases htr : truthy t.Team with
  | none => rw [htr] at hf; cases hf
  | some tm2 =>
    rw [htr] at hf
    rcases Option.map_eq_some'.mp hf with ⟨q, hpm, hpair⟩
    have : tm2 = tm := congrArg Prod.fst hpair
    subst this
    rw [hpm]
    exact ⟨rfl, rfl⟩

/-- C3: every team present in the defense table built from team season stats
has a score in [0, 100] and a tier that is exactly the threshold
classification green / yellow / red; every team none of whose rows carries a
parsable opponent-scoring metric is absent from the table. -/
theorem C3_theorem (ts : List V1.TeamStat) :
    (∀ tm e, dlookup (V1.build_team_defense_table ts) tm = some e →
      (0 ≤ e.score_0_100 ∧ e.score_0_100 ≤ 100)
      ∧ (e.tier = "green" ∨ e.tier = "yellow" ∨ e.tier = "red")
      ∧ (66 ≤ e.score_0_100 → e.tier = "red")
      ∧ (33 ≤ e.score_0_100 ∧ e.score_0_100 < 66 → e.tier = "yellow")
      ∧ (e.score_0_100 < 33 → e.tier = "green"))
    ∧ (∀ tm, (∀ t ∈ ts, truthy t.Team = some tm → V1.parsedMetric t = none) →
        dlookup (V1.build_team_defense_table ts) tm = none) := by
  constructor
  · intro tm e h
    rcases defense_lookup_shape h with ⟨i, v, hmem, he⟩
    have hv : v ∈ (V1.sortMetrics (V1.metricsOf ts)).map (fun p => p.2) :=
      List.mem_map.mpr ⟨(tm, v), hmem, rfl⟩
    have hb := mkDefEntry_score_mem hv i
    have htier : e.tier = V1.tierOf e.score_0_100 := by
      rw [he]
      rfl
    rw [he]
    rcases tierOf_spec (V1.mkDefEntry v i
      (V1.vminOf ((V1.sortMetrics (V1.metricsOf ts)).map (fun p => p.2)))
      (V1.spreadOf ((V1.sortMetrics (V1.metricsOf ts)).map (fun p => p.2)))).score_0_100
      with ⟨ht1, ht2, ht3, ht4⟩
    exact ⟨hb, ht1, ht2, ht3, ht4⟩
  · intro tm hnone
    cases hd : dlookup (V1.build_team_defense_table ts) tm with
    | none => rfl
    | some e =>
      rcases defense_lookup_source hd with ⟨t, ht, htr, hsome⟩
      rw [hnone t ht htr] at hsome
      cases hsome

/-- C3 witness: on a three-team feed where NYK has only an unparsable metric,
BOS is in the table with a score in range and a legal tier, and NYK is
absent. -/
theorem C3_witness :
    (∃ e, dlookup (V1.build_team_defense_table
        [⟨some "BOS", some (V1.RawVal.parsable 100), none⟩,
         ⟨some "MIA", none, some (V1.RawVal.parsable 110)⟩,
         ⟨some "NYK", some V1.RawVal.unparsable, none⟩]) "BOS" = some e
      ∧ 0 ≤ e.score_0_100 ∧ e.score_0_100 ≤ 100
      ∧ (e.tier = "green" ∨ e.tier = "yellow" ∨ e.tier = "red"))
    ∧ dlookup (V1.build_team_defense_table
        [⟨some "BOS", some (V1.RawVal.parsable 100), none⟩,
         ⟨some "MIA", none, some (V1.RawVal.parsable 110)⟩,
         ⟨some "NYK", some V1.RawVal.unparsable, none⟩]) "NYK" = none := by
  constructor
  · have hs : (dlookup (V1.build_team_defense_table
        [⟨some "BOS", some (V1.RawVal.parsable 100), none⟩,
         ⟨some "MIA", none, some (V1.RawVal.parsable 110)⟩,
         ⟨some "NYK", some V1.RawVal.unparsable, none⟩]) "BOS").isSome := by decide
    rcases Option.isSome_iff_exists.mp hs with ⟨e, he⟩
    rcases (C3_theorem _).1 "BOS" e he with ⟨hb, ht, _⟩
    exact ⟨e, he, hb.1, hb.2, ht⟩
  · exact (C3_theorem _).2 "NYK" (by decide)

theorem roundTo_100_eq : roundTo 100 2 = 100 := by
  unfold roundTo
  rw [show (100 : ℚ) * 10 ^ 2 = ((10000 : ℤ) : ℚ) from by norm_num, pyRound_intCast]
  norm_num

/-- C7: when every parsed metric value is the same constant, the spread
floors at 1e-6, so no division by zero happens, the table is built for every
input team, and every entry receives the degenerate score 100. -/
theorem C7_theorem (metrics : List (String × ℚ)) (c : ℚ)
    (hne : metrics ≠ []) (hall : ∀ p ∈ metrics, p.2 = c) :
    V1.spreadOf ((V1.sortMetrics metrics).map (fun p => p.2)) = 1e-6
    ∧ (∀ tm e, dlookup (V1.defense_table_of_metrics metrics) tm = some e →
        e.score_0_100 = 100)
    ∧ (∀ p ∈ metrics, (dlookup (V1.defense_table_of_metrics metrics) p.1).isSome) := by
  have hallv : ∀ v ∈ (V1.sortMetrics metrics).map (fun p => p.2), v = c := by
    intro v hv
    rcases List.mem_map.mp hv with ⟨p, hp, he⟩
    have hpm : p ∈ metrics :=
      (List.perm_insertionSort _ metrics).mem_iff.mp hp
    rw [← he]
    exact hall p hpm
  have hsne : V1.sortMetrics metrics ≠ [] := by
    intro h0
    apply hne
    have := (List.perm_insertionSort
      (fun a b : String × ℚ => a.2 ≤ b.2) metrics).length_eq
    rw [show V1.sortMetrics metrics = List.insertionSort
      (fun a b : String × ℚ => a.2 ≤ b.2) metrics from rfl] at h0
    rw [h0] at this
    exact List.length_eq_zero.mp this.symm
  have hvne : (V1.sortMetrics metrics).map (fun p => p.2) ≠ [] := by
    intro h0
    exact hsne (List.map_eq_nil_iff.mp h0)
  have hmin : V1.vminOf ((V1.sortMetrics metrics).map (fun p => p.2)) = c :=
    vminOf_all_eq hvne hallv
  have hmax : V1.vmaxOf ((V1.sortMetrics metrics).map (fun p => p.2)) = c :=
    vmaxOf_all_eq hvne hallv
  have hspread : V1.spreadOf ((V1.sortMetrics metrics).map (fun p => p.2)) = 1e-6 := by
    unfold V1.spreadOf
    rw [hmin, hmax, sub_self]
    norm_num
  refine ⟨hspread, ?_, ?_⟩
  · intro tm e h
    rcases defense_lookup_shape h with ⟨i, v, hmem, he⟩
    have hvc : v = c := by
      apply hallv
      exact List.mem_map.mpr ⟨(tm, v), hmem, rfl⟩
    rw [he]
    show roundTo ((1 - (v - V1.vminOf ((V1.sortMetrics metrics).map (fun p => p.2))) /
      V1.spreadOf ((V1.sortMetrics metrics).map (fun p => p.2))) * 100) 2 = 100
    rw [hmin, hspread, hvc, sub_self, zero_div, sub_zero, one_mul]
    exact roundTo_100_eq
  · intro p hp
    unfold V1.defense_table_of_metrics
    rw [if_neg hne]
    apply dlookup_foldInserts_isSome
    have hps : p ∈ V1.sortMetrics metrics :=
      (List.perm_insertionSort _ metrics).mem_iff.mpr hp
    rcases exists_mem_enum1 hps 1 with ⟨i, hi⟩
    refine ⟨V1.mkDefEntry p.2 i
      (V1.vminOf ((V1.sortMetrics metrics).map (fun q => q.2)))
      (V1.spreadOf ((V1.sortMetrics metrics).map (fun q => q.2))), ?_⟩
    unfold V1.tableRows
    exact List.mem_map.mpr ⟨(i, p), hi, rfl⟩

/-- C7 witness: two teams with the identical metric 5 both end with score
100 and the spread floor 1e-6. -/
theorem C7_witness :
    V1.spreadOf ((V1.sortMetrics [("A", (5 : ℚ)), ("B", 5)]).map (fun p => p.2)) = 1e-6
    ∧ (∀ tm e, dlookup (V1.defense_table_of_metrics [("A", (5 : ℚ)), ("B", 5)]) tm = some e →
        e.score_0_100 = 100)
    ∧ (∀ p ∈ [("A", (5 : ℚ)), ("B", 5)],
        (dlookup (V1.defense_table_of_metrics [("A", (5 : ℚ)), ("B", 5)]) p.1).isSome) :=
  C7_theorem [("A", 5), ("B", 5)] 5 (by decide)
    (by
      intro p hp
      rcases List.mem_cons.mp hp with he | hm
      · rw [he]
      · rcases List.mem_cons.mp hm with he2 | hm2
        · rw [he2]
        · cases hm2)


/- Shift-invariance machinery for C8. -/

theorem orderedInsert_shift (c : ℚ) (a : String × ℚ) :
    ∀ l : List (String × ℚ),
    List.orderedInsert (fun x y => x.2 ≤ y.2) (a.1, a.2 + c)
      (l.map (fun p => (p.1, p.2 + c)))
    = (List.orderedInsert (fun x y => x.2 ≤ y.2) a l).map
        (fun p => (p.1, p.2 + c)) := by
  intro l
  induction l with
  | nil => rfl
  | cons b t ih =>
    simp only [List.map_cons, List.orderedInsert]
    by_cases h : a.2 ≤ b.2
    · rw [if_pos (show (a.1, a.2 + c).2 ≤ (b.1, b.2 + c).2 from by
        simpa using h), if_pos h]
      simp
    · rw [if_neg (show ¬ (a.1, a.2 + c).2 ≤ (b.1, b.2 + c).2 from by
        simpa using h), if_neg h]
      rw [ih]
      simp

theorem insertionSort_shift (c : ℚ) :
    ∀ l : List (String × ℚ),
    List.insertionSort (fun x y => x.2 ≤ y.2) (l.map (fun p => (p.1, p.2 + c)))
    = (List.insertionSort (fun x y => x.2 ≤ y.2) l).map
        (fun p => (p.1, p.2 + c)) := by
  intro l
  induction l with
  | nil => rfl
  | cons a t ih =>
    simp only [List.map_cons, List.insertionSort]
    rw [ih]
    exact orderedInsert_shift c a _

theorem sortMetrics_shift (c : ℚ) (metrics : List (String × ℚ)) :
    V1.sortMetrics (metrics.map (fun p => (p.1, p.2 + c)))
    = (V1.sortMetrics metrics).map (fun p => (p.1, p.2 + c)) :=
  insertionSort_shift c metrics

theorem vminOf_shift (c : ℚ) (v : ℚ) (vs : List ℚ) :
    V1.vminOf ((v :: vs).map (fun x => x + c)) = V1.vminOf (v :: vs) + c := by
  suffices h : ∀ (vs : List ℚ) (a : ℚ),
      (vs.map (fun x => x + c)).foldl min (a + c) = vs.foldl min a + c by
    exact h vs v
  intro vs
  induction vs with
  | nil => intro a; rfl
  | cons u us ih =>
    intro a
    simp only [List.map_cons, List.foldl_cons]
    rw [min_add_add_right a u c]
    exact ih (min a u)

theorem vmaxOf_shift (c : ℚ) (v : ℚ) (vs : List ℚ) :
    V1.vmaxOf ((v :: vs).map (fun x => x + c)) = V1.vmaxOf (v :: vs) + c := by
  suffices h : ∀ (vs : List ℚ) (a : ℚ),
      (vs.map (fun x => x + c)).foldl max (a + c) = vs.foldl max a + c by
    exact h vs v
  intro vs
  induction vs with
  | nil => intro a; rfl
  | cons u us ih =>
    intro a
    simp only [List.map_cons, List.foldl_cons]
    rw [max_add_add_right a u c]
    exact ih (max a u)

theorem spreadOf_shift (c : ℚ) (v : ℚ) (vs : List ℚ) :
    V1.spreadOf ((v :: vs).map (fun x => x + c)) = V1.spreadOf (v :: vs) := by
  unfold V1.spreadOf
  rw [vminOf_shift, vmaxOf_shift, add_sub_add_right_eq_sub]

theorem enum1_map {α β : Type} (f : α → β) :
    ∀ (n : ℕ) (l : List α),
    enum1 n (l.map f) = (enum1 n l).map (fun p => (p.1, f p.2)) := by
  intro n l
  induction l generalizing n with
  | nil => rfl
  | cons a t ih =>
    simp only [List.map_cons, enum1, ih]

theorem mkDefEntry_shift (v : ℚ) (i : ℕ) (vmin spread c : ℚ) :
    V1.mkDefEntry (v + c) i (vmin + c) spread =
    V1.shiftEntry c (V1.mkDefEntry v i vmin spread) := by
  have harg : v + c - (vmin + c) = v - vmin := by ring
  simp only [V1.mkDefEntry, V1.shiftEntry, harg]

theorem tableRows_shift (c : ℚ) (metrics : List (String × ℚ)) :
    V1.tableRows (metrics.map (fun p => (p.1, p.2 + c)))
    = (V1.tableRows metrics).map (fun q => (q.1, V1.shiftEntry c q.2)) := by
  cases metrics with
  | nil => rfl
  | cons m ms =>
    simp only [V1.tableRows]
    rw [sortMetrics_shift]
    have hsne : V1.sortMetrics (m :: ms) ≠ [] := by
      intro h0
      have hlen := (List.perm_insertionSort
        (fun a b : String × ℚ => a.2 ≤ b.2) (m :: ms)).length_eq
      rw [show List.insertionSort (fun a b : String × ℚ => a.2 ≤ b.2) (m :: ms)
        = V1.sortMetrics (m :: ms) from rfl, h0] at hlen
      simp at hlen
    cases hs : V1.sortMetrics (m :: ms) with
    | nil => exact absurd hs hsne
    | cons s0 ss =>
      have hvals : ((s0 :: ss).map (fun p => (p.1, p.2 + c))).map (fun p => p.2)
          = (s0.2 :: ss.map (fun p => p.2)).map (fun x => x + c) := by
        simp [List.map_map]
      rw [hvals]
      rw [show (s0 :: ss).map (fun p => p.2) = s0.2 :: ss.map (fun p => p.2)
        from rfl]
      rw [vminOf_shift c s0.2 (ss.map (fun p => p.2)),
        spreadOf_shift c s0.2 (ss.map (fun p => p.2))]
      rw [enum1_map, List.map_map, List.map_map]
      apply List.map_congr_left
      intro q _
      simp only [Function.comp]
      rw [mkDefEntry_shift]

theorem dlookup_valmap {α β : Type} (g : α → β) :
    ∀ (d : List (String × α)) (k : String),
    dlookup (d.map (fun p => (p.1, g p.2))) k = (dlookup d k).map g := by
  intro d
  induction d with
  | nil => intro k; rfl
  | cons p rest ih =>
    intro k
    simp only [List.map_cons, dlookup_cons]
    by_cases hp : p.1 = k
    · rw [if_pos hp, if_pos hp]
      rfl
    · rw [if_neg hp, if_neg hp]
      exact ih k

theorem dictInsert_valmap {α β : Type} (g : α → β) (d : List (String × α))
    (k : String) (v : α) :
    dictInsert (d.map (fun p => (p.1, g p.2))) k (g v)
    = (dictInsert d k v).map (fun p => (p.1, g p.2)) := by
  unfold dictInsert
  rw [dlookup_valmap]
  cases hd : dlookup d k with
  | none =>
    simp only [hd, Option.map_none', Option.isSome_none, Bool.false_eq_true,
      if_false, List.map_append]
    rfl
  | some w =>
    simp only [hd, Option.map_some', Option.isSome_some, if_true,
      List.map_map]
    apply List.map_congr_left
    intro p _
    by_cases hp : p.1 = k
    · simp [Function.comp, hp]
    · simp [Function.comp, hp]

theorem foldInserts_valmap_aux {α β : Type} (g : α → β) :
    ∀ (l d : List (String × α)),
    (l.map (fun p => (p.1, g p.2))).foldl (fun d p => dictInsert d p.1 p.2)
      (d.map (fun p => (p.1, g p.2)))
    = (l.foldl (fun d p => dictInsert d p.1 p.2) d).map
        (fun p => (p.1, g p.2)) := by
  intro l
  induction l with
  | nil => intro d; rfl
  | cons p rest ih =>
    intro d
    simp only [List.map_cons, List.foldl_cons]
    rw [show dictInsert (d.map (fun p => (p.1, g p.2))) (p.1, g p.2).1 (p.1, g p.2).2
      = dictInsert (d.map (fun p => (p.1, g p.2))) p.1 (g p.2) from rfl]
    rw [dictInsert_valmap]
    exact ih (dictInsert d p.1 p.2)

theorem foldInserts_valmap {α β : Type} (g : α → β) (l : List (String × α)) :
    foldInserts (l.map (fun p => (p.1, g p.2)))
    = (foldInserts l).map (fun p => (p.1, g p.2)) := by
  unfold foldInserts
  exact foldInserts_valmap_aux g l []

theorem defense_table_shift (c : ℚ) (metrics : List (String × ℚ)) :
    V1.defense_table_of_metrics (metrics.map (fun p => (p.1, p.2 + c)))
    = (V1.defense_table_of_metrics metrics).map
        (fun q => (q.1, V1.shiftEntry c q.2)) := by
  unfold V1.defense_table_of_metrics
  by_cases hm : metrics = []
  · rw [hm]
    rfl
  · have hm2 : metrics.map (fun p => (p.1, p.2 + c)) ≠ [] := by
      simpa using hm
    rw [if_neg hm, if_neg hm2, tableRows_shift]
    exact foldInserts_valmap _ _

/-- C8: adding a constant to every metric of the defensive-tiering input
leaves the score, tier and rank of every team in the resulting table
unchanged. -/
theorem C8_theorem (metrics : List (String × ℚ)) (c : ℚ) (tm : String) :
    Option.map (fun e => (e.score_0_100, e.tier, e.rank))
      (dlookup (V1.defense_table_of_metrics
        (metrics.map (fun p => (p.1, p.2 + c)))) tm)
    = Option.map (fun e => (e.score_0_100, e.tier, e.rank))
      (dlookup (V1.defense_table_of_metrics metrics) tm) := by
  rw [defense_table_shift, dlookup_valmap]
  cases dlookup (V1.defense_table_of_metrics metrics) tm with
  | none => rfl
  | some e => rfl


/- Generic lemmas about the nested roster fold shared by both builders. -/

theorem inner_fold_lookup {β : Type} (f : String → β) {name : String} {rec : β} :
    ∀ (ps : List String) (acc : List (String × β)),
    dlookup (ps.foldl (fun acc nm => dictInsert acc nm (f nm)) acc) name = some rec →
    rec = f name ∨ dlookup acc name = some rec := by
  intro ps
  induction ps with
  | nil => intro acc h; exact Or.inr h
  | cons nm rest ih =>
    intro acc h
    rcases ih (dictInsert acc nm (f nm)) h with hl | hr
    · exact Or.inl hl
    · rcases dlookup_dictInsert_cases hr with ⟨hk, hv⟩ | hold
      · subst hk
        exact Or.inl hv
      · exact Or.inr hold

theorem nested_fold_lookup {β : Type} (recFor : String → String → β)
    {name : String} {rec : β} :
    ∀ (rls : List (String × List String)) (init : List (String × β)),
    dlookup (rls.foldl (fun final tp =>
      tp.2.foldl (fun acc nm => dictInsert acc nm (recFor tp.1 nm)) final) init)
      name = some rec →
    (∃ tc, rec = recFor tc name) ∨ dlookup init name = some rec := by
  intro rls
  induction rls with
  | nil => intro init h; exact Or.inr h
  | cons tp rest ih =>
    intro init h
    rcases ih _ h with hl | hr
    · exact Or.inl hl
    · rcases inner_fold_lookup (recFor tp.1) tp.2 init hr with he | hi
      · exact Or.inl ⟨tp.1, he⟩
      · exact Or.inr hi

theorem inner_fold_covers {β : Type} (f : String → β) (name : String) :
    ∀ (ps : List String) (acc : List (String × β)),
    (name ∈ ps ∨ (dlookup acc name).isSome) →
    (dlookup (ps.foldl (fun acc nm => dictInsert acc nm (f nm)) acc) name).isSome := by
  intro ps
  induction ps with
  | nil =>
    intro acc h
    rcases h with h | h
    · cases h
    · exact h
  | cons nm rest ih =>
    intro acc h
    apply ih
    rcases h with h | h
    · rcases List.mem_cons.mp h with he | hm
      · subst he
        right
        rw [dlookup_dictInsert_self]
        rfl
      · exact Or.inl hm
    · exact Or.inr (dlookup_dictInsert_isSome _ _ h)

theorem nested_fold_covers {β : Type} (recFor : String → String → β)
    (name : String) :
    ∀ (rls : List (String × List String)) (init : List (String × β)),
    ((∃ tc ps, (tc, ps) ∈ rls ∧ name ∈ ps) ∨ (dlookup init name).isSome) →
    (dlookup (rls.foldl (fun final tp =>
      tp.2.foldl (fun acc nm => dictInsert acc nm (recFor tp.1 nm)) final) init)
      name).isSome := by
  intro rls
  induction rls with
  | nil =>
    intro init h
    rcases h with ⟨tc, ps, hm, _⟩ | h
    · cases hm
    · exact h
  | cons tp rest ih =>
    intro init h
    apply ih
    rcases h with ⟨tc, ps, hm, hn⟩ | h
    · rcases List.mem_cons.mp hm with he | hm2
      · right
        apply inner_fold_covers
        left
        have : ps = tp.2 := congrArg Prod.snd he
        rw [← this]
        exact hn
      · exact Or.inl ⟨tc, ps, hm2, hn⟩
    · exact Or.inr (inner_fold_covers _ _ _ _ (Or.inr h))

/- Projection lemmas on the two record shapes; all hold by computation. -/

theorem presentRecord_keys (sq : ℚ → ℚ) (logsB : List (String × List V2.GameLog))
    (opponents : List (String × String)) (tInfo : List (String × V2.TeamInfo))
    (dRank : List (String × ℕ)) (apf : ℚ) (tc name : String) (sr : V2.SeasonRaw) :
    (V2.presentRecord sq logsB opponents tInfo dRank apf tc name sr).map Prod.fst
    = V2.presentKeys := rfl

theorem missingRecord_keys (tc : String) :
    (V2.missingRecord tc).map Prod.fst = V2.missingKeys := rfl

theorem presentRecord_confidence (sq : ℚ → ℚ)
    (logsB : List (String × List V2.GameLog))
    (opponents : List (String × String)) (tInfo : List (String × V2.TeamInfo))
    (dRank : List (String × ℕ)) (apf : ℚ) (tc name : String) (sr : V2.SeasonRaw) :
    dlookup (V2.presentRecord sq logsB opponents tInfo dRank apf tc name sr)
      "confidence"
    = some (Val.num ((V2.recConfidence sq logsB opponents tInfo dRank apf tc name sr : ℤ) : ℚ)) := rfl

theorem presentRecord_recTag (sq : ℚ → ℚ)
    (logsB : List (String × List V2.GameLog))
    (opponents : List (String × String)) (tInfo : List (String × V2.TeamInfo))
    (dRank : List (String × ℕ)) (apf : ℚ) (tc name : String) (sr : V2.SeasonRaw) :
    dlookup (V2.presentRecord sq logsB opponents tInfo dRank apf tc name sr)
      "rec_tag"
    = some (Val.str (V2.recTagOf
        (V2.recConfidence sq logsB opponents tInfo dRank apf tc name sr))) := rfl

theorem presentRecord_smi (sq : ℚ → ℚ)
    (logsB : List (String × List V2.GameLog))
    (opponents : List (String × String)) (tInfo : List (String × V2.TeamInfo))
    (dRank : List (String × ℕ)) (apf : ℚ) (tc name : String) (sr : V2.SeasonRaw) :
    dlookup (V2.presentRecord sq logsB opponents tInfo dRank apf tc name sr)
      "smi"
    = some (Val.num (V2.recSmi opponents tInfo dRank apf tc)) := rfl

theorem presentRecord_opponent (sq : ℚ → ℚ)
    (logsB : List (String × List V2.GameLog))
    (opponents : List (String × String)) (tInfo : List (String × V2.TeamInfo))
    (dRank : List (String × ℕ)) (apf : ℚ) (tc name : String) (sr : V2.SeasonRaw) :
    dlookup (V2.presentRecord sq logsB opponents tInfo dRank apf tc name sr)
      "opponent"
    = some (optStr (dlookup opponents tc)) := rfl

theorem presentRecord_defRank (sq : ℚ → ℚ)
    (logsB : List (String × List V2.GameLog))
    (opponents : List (String × String)) (tInfo : List (String × V2.TeamInfo))
    (dRank : List (String × ℕ)) (apf : ℚ) (tc name : String) (sr : V2.SeasonRaw) :
    dlookup (V2.presentRecord sq logsB opponents tInfo dRank apf tc name sr)
      "def_rank"
    = some (optRank ((truthy (dlookup opponents tc)).bind
        (fun o => dlookup dRank o))) := rfl

theorem missingRecord_confidence (tc : String) :
    dlookup (V2.missingRecord tc) "confidence" = some (Val.num 50) := rfl

theorem missingRecord_recTag (tc : String) :
    dlookup (V2.missingRecord tc) "rec_tag" = some (Val.str "Unknown") := rfl

theorem missingRecord_smi (tc : String) :
    dlookup (V2.missingRecord tc) "smi" = some (Val.num 0.5) := rfl

theorem missingRecord_opponent (tc : String) :
    dlookup (V2.missingRecord tc) "opponent" = some Val.null := rfl

theorem missingRecord_defRank (tc : String) :
    dlookup (V2.missingRecord tc) "def_rank" = some Val.null := rfl

/- Characterization of the records of the finished build. -/

theorem buildFinal_lookup {sq : ℚ → ℚ} {rosters : List (String × List String)}
    {season_stats : List V2.SeasonRaw} {game_logs : List V2.GameLog}
    {todays_games : List V2.Game2} {standings : List V2.Standing}
    {name : String} {rec : List (String × Val)}
    (h : dlookup (V2.buildFinal sq rosters season_stats game_logs todays_games
      standings) name = some rec) :
    (∃ tc, rec = V2.missingRecord tc
      ∧ dlookup (V2.seasonMap season_stats) name = none)
    ∨ (∃ tc sr, dlookup (V2.seasonMap season_stats) name = some sr
      ∧ rec = V2.presentRecord sq (V2.logsByName game_logs)
          (V2.opponentsMap todays_games) (V2.teamInfoMap standings)
          (V2.defRankMap standings) (V2.avg_pf standings) tc name sr) := by
  simp only [V2.buildFinal] at h
  rcases nested_fold_lookup _ rosters [] h with ⟨tc, he⟩ | hbad
  · unfold V2.recordFor at he
    cases hs : dlookup (V2.seasonMap season_stats) name with
    | none =>
      rw [hs] at he
      exact Or.inl ⟨tc, he, rfl⟩
    | some sr =>
      rw [hs] at he
      exact Or.inr ⟨tc, sr, rfl, he⟩
  · rw [dlookup_nil] at hbad
    cases hbad

theorem buildFinal_covers {sq : ℚ → ℚ} {rosters : List (String × List String)}
    {season_stats : List V2.SeasonRaw} {game_logs : List V2.GameLog}
    {todays_games : List V2.Game2} {standings : List V2.Standing}
    {tc : String} {ps : List String} {name : String}
    (hmem : (tc, ps) ∈ rosters) (hname : name ∈ ps) :
    (dlookup (V2.buildFinal sq rosters season_stats game_logs todays_games
      standings) name).isSome := by
  simp only [V2.buildFinal]
  exact nested_fold_covers _ name rosters [] (Or.inl ⟨tc, ps, hmem, hname⟩)

theorem build_player_stats_lookup {rosters : List (String × List String)}
    {raw : List V1.PlayerRaw} {defense_table : List (String × V1.DefEntry)}
    {opponent_map : List (String × String)}
    {name : String} {rec : List (String × Val)}
    (h : dlookup (V1.build_player_stats rosters raw defense_table opponent_map)
      name = some rec) :
    ∃ tc, rec = V1.outFor (V1.playerLookupV1 raw) defense_table opponent_map
      tc name := by
  simp only [V1.build_player_stats] at h
  rcases nested_fold_lookup _ rosters [] h with ⟨tc, he⟩ | hbad
  · exact ⟨tc, he⟩
  · rw [dlookup_nil] at hbad
    cases hbad


/- Integer bounds of the five confidence adjustments. -/

theorem usageAdj_int (u : ℚ) :
    ∃ z : ℤ, V2.usageAdj u = (z : ℚ) ∧ 0 ≤ z ∧ z ≤ 15 := by
  unfold V2.usageAdj
  split_ifs
  · exact ⟨15, by norm_num, by omega, by omega⟩
  · exact ⟨8, by norm_num, by omega, by omega⟩
  · exact ⟨0, by norm_num, by omega, by omega⟩

theorem minutesAdj_int (m : ℚ) :
    ∃ z : ℤ, V2.minutesAdj m = (z : ℚ) ∧ 0 ≤ z ∧ z ≤ 12 := by
  unfold V2.minutesAdj
  split_ifs
  · exact ⟨12, by norm_num, by omega, by omega⟩
  · exact ⟨6, by norm_num, by omega, by omega⟩
  · exact ⟨0, by norm_num, by omega, by omega⟩

theorem smiAdj_int (s : ℚ) :
    ∃ z : ℤ, V2.smiAdj s = (z : ℚ) ∧ -8 ≤ z ∧ z ≤ 10 := by
  unfold V2.smiAdj
  split_ifs
  · exact ⟨10, by norm_num, by omega, by omega⟩
  · exact ⟨5, by norm_num, by omega, by omega⟩
  · exact ⟨-8, by norm_num, by omega, by omega⟩
  · exact ⟨0, by norm_num, by omega, by omega⟩

theorem trendAdj_int (t : String) :
    ∃ z : ℤ, V2.trendAdj t = (z : ℚ) ∧ -6 ≤ z ∧ z ≤ 6 := by
  unfold V2.trendAdj
  split_ifs
  · exact ⟨6, by norm_num, by omega, by omega⟩
  · exact ⟨-6, by norm_num, by omega, by omega⟩
  · exact ⟨0, by norm_num, by omega, by omega⟩

theorem consAdj_int (c : ℚ) :
    ∃ z : ℤ, V2.consAdj c = (z : ℚ) ∧ -6 ≤ z ∧ z ≤ 6 := by
  unfold V2.consAdj
  split_ifs
  · exact ⟨6, by norm_num, by omega, by omega⟩
  · exact ⟨-6, by norm_num, by omega, by omega⟩
  · exact ⟨0, by norm_num, by omega, by omega⟩

theorem conf0_int (u m s : ℚ) (t : String) (cns : ℚ) :
    ∃ z : ℤ, V2.conf0 u m s t cns = (z : ℚ) ∧ 30 ≤ z ∧ z ≤ 99 := by
  obtain ⟨z1, h1, h1a, h1b⟩ := usageAdj_int u
  obtain ⟨z2, h2, h2a, h2b⟩ := minutesAdj_int m
  obtain ⟨z3, h3, h3a, h3b⟩ := smiAdj_int s
  obtain ⟨z4, h4, h4a, h4b⟩ := trendAdj_int t
  obtain ⟨z5, h5, h5a, h5b⟩ := consAdj_int cns
  refine ⟨50 + z1 + z2 + z3 + z4 + z5, ?_, by omega, by omega⟩
  unfold V2.conf0
  rw [h1, h2, h3, h4, h5]
  push_cast
  ring

theorem confFinal_spec (u m s : ℚ) (t : String) (cns : ℚ) :
    30 ≤ V2.confFinal u m s t cns ∧ V2.confFinal u m s t cns ≤ 99
    ∧ V2.confFinal u m s t cns = pyRound (V2.conf0 u m s t cns) := by
  obtain ⟨z, hz, h30, h99⟩ := conf0_int u m s t cns
  unfold V2.confFinal
  rw [hz, pyRound_intCast]
  unfold clampZ
  rw [min_eq_right (by omega : z ≤ 100), max_eq_right (by omega : (0 : ℤ) ≤ z)]
  exact ⟨h30, h99, rfl⟩

theorem conf0_delta_bounds (u m s : ℚ) (t : String) (cns : ℚ) :
    -20 ≤ V2.conf0 u m s t cns - 50 ∧ V2.conf0 u m s t cns - 50 ≤ 49 := by
  obtain ⟨z1, h1, h1a, h1b⟩ := usageAdj_int u
  obtain ⟨z2, h2, h2a, h2b⟩ := minutesAdj_int m
  obtain ⟨z3, h3, h3a, h3b⟩ := smiAdj_int s
  obtain ⟨z4, h4, h4a, h4b⟩ := trendAdj_int t
  obtain ⟨z5, h5, h5a, h5b⟩ := consAdj_int cns
  unfold V2.conf0
  rw [h1, h2, h3, h4, h5]
  constructor
  · have : (-20 : ℚ) ≤ (z1 : ℚ) + z2 + z3 + z4 + z5 := by
      have c1 : ((-20 : ℤ) : ℚ) ≤ ((z1 + z2 + z3 + z4 + z5 : ℤ) : ℚ) := by
        exact_mod_cast (by omega : (-20 : ℤ) ≤ z1 + z2 + z3 + z4 + z5)
      push_cast at c1
      linarith
    linarith
  · have : (z1 : ℚ) + z2 + z3 + z4 + z5 ≤ 49 := by
      have c1 : ((z1 + z2 + z3 + z4 + z5 : ℤ) : ℚ) ≤ ((49 : ℤ) : ℚ) := by
        exact_mod_cast (by omega : z1 + z2 + z3 + z4 + z5 ≤ (49 : ℤ))
      push_cast at c1
      linarith
    linarith

theorem recConfidence_bounds (sq : ℚ → ℚ)
    (logsB : List (String × List V2.GameLog))
    (opponents : List (String × String)) (tInfo : List (String × V2.TeamInfo))
    (dRank : List (String × ℕ)) (apf : ℚ) (tc name : String)
    (sr : V2.SeasonRaw) :
    30 ≤ V2.recConfidence sq logsB opponents tInfo dRank apf tc name sr
    ∧ V2.recConfidence sq logsB opponents tInfo dRank apf tc name sr ≤ 99 := by
  unfold V2.recConfidence
  exact ⟨(confFinal_spec _ _ _ _ _).1, (confFinal_spec _ _ _ _ _).2.1⟩

theorem recTagOf_eq_spec (c : ℤ) : V2.recTagOf c = V2.recTagSpec c := rfl

/-- C1 (amended): every record the builder emits carries an integer
confidence in [0, 100]; for a player found in the season-stat source the
rec_tag is exactly the threshold-table tag of that confidence, while a
player missing from the source gets confidence exactly 50 and the literal
tag Unknown instead of the table value. -/
theorem C1_theorem (sq : ℚ → ℚ) (rosters : List (String × List String))
    (season_stats : List V2.SeasonRaw) (game_logs : List V2.GameLog)
    (todays_games : List V2.Game2) (standings : List V2.Standing)
    (name : String) (rec : List (String × Val))
    (h : dlookup (V2.buildFinal sq rosters season_stats game_logs todays_games
      standings) name = some rec) :
    ∃ c : ℤ, dlookup rec "confidence" = some (Val.num (c : ℚ))
      ∧ 0 ≤ c ∧ c ≤ 100
      ∧ ∃ tag, dlookup rec "rec_tag" = some (Val.str tag)
        ∧ ((dlookup (V2.seasonMap season_stats) name).isSome →
            tag = V2.recTagSpec c)
        ∧ (dlookup (V2.seasonMap season_stats) name = none →
            c = 50 ∧ tag = "Unknown") := by
  rcases buildFinal_lookup h with ⟨tc, he, hn⟩ | ⟨tc, sr, hs, he⟩
  · subst he
    refine ⟨50, ?_, by omega, by omega, "Unknown", missingRecord_recTag tc,
      ?_, fun _ => ⟨rfl, rfl⟩⟩
    · rw [missingRecord_confidence]
      norm_num
    · intro hsome
      rw [hn] at hsome
      cases hsome
  · subst he
    refine ⟨V2.recConfidence sq (V2.logsByName game_logs)
        (V2.opponentsMap todays_games) (V2.teamInfoMap standings)
        (V2.defRankMap standings) (V2.avg_pf standings) tc name sr,
      presentRecord_confidence _ _ _ _ _ _ _ _ _, ?_, ?_,
      V2.recTagOf (V2.recConfidence sq (V2.logsByName game_logs)
        (V2.opponentsMap todays_games) (V2.teamInfoMap standings)
        (V2.defRankMap standings) (V2.avg_pf standings) tc name sr),
      presentRecord_recTag _ _ _ _ _ _ _ _ _,
      fun _ => recTagOf_eq_spec _, ?_⟩
    · have := (recConfidence_bounds sq (V2.logsByName game_logs)
        (V2.opponentsMap todays_games) (V2.teamInfoMap standings)
        (V2.defRankMap standings) (V2.avg_pf standings) tc name sr).1
      omega
    · have := (recConfidence_bounds sq (V2.logsByName game_logs)
        (V2.opponentsMap todays_games) (V2.teamInfoMap standings)
        (V2.defRankMap standings) (V2.avg_pf standings) tc name sr).2
      omega
    · intro hnone
      rw [hnone] at hs
      cases hs

/-- C1 counterexample: a roster player missing from the season feed is
emitted with confidence 50 but rec_tag Unknown, while the threshold table
demands Volatile at confidence 50; so rec_tag does not match the table for
such records. -/
theorem C1_counterexample :
    dlookup ((dlookup (V2.buildFinal id [("BOS", ["Bob"])] [] [] [] []) "Bob").getD [])
      "confidence" = some (Val.num 50)
    ∧ dlookup ((dlookup (V2.buildFinal id [("BOS", ["Bob"])] [] [] [] []) "Bob").getD [])
      "rec_tag" = some (Val.str "Unknown")
    ∧ V2.recTagSpec 50 = "Volatile"
    ∧ ("Unknown" : String) ≠ "Volatile" :=
  ⟨rfl, rfl, rfl, by decide⟩

/-- C1 witness: the amended statement applied to a one-player roster with an
empty season feed. -/
theorem C1_witness :
    ∃ c : ℤ, dlookup (V2.missingRecord "LAL") "confidence" = some (Val.num (c : ℚ))
      ∧ 0 ≤ c ∧ c ≤ 100
      ∧ ∃ tag, dlookup (V2.missingRecord "LAL") "rec_tag" = some (Val.str tag)
        ∧ ((dlookup (V2.seasonMap []) "Carl").isSome → tag = V2.recTagSpec c)
        ∧ (dlookup (V2.seasonMap []) "Carl" = none →
            c = 50 ∧ tag = "Unknown") :=
  C1_theorem id [("LAL", ["Carl"])] [] [] [] [] "Carl"
    (V2.missingRecord "LAL") rfl

/-- C10: every emitted confidence in fact lies in [30, 99]: the adjustments
to the base 50 sum to between -20 and +49, a player missing from the season
feed gets exactly 50, and the final clamp to [0, 100] is the identity on
the rounded value. -/
theorem C10_theorem (sq : ℚ → ℚ) (rosters : List (String × List String))
    (season_stats : List V2.SeasonRaw) (game_logs : List V2.GameLog)
    (todays_games : List V2.Game2) (standings : List V2.Standing)
    (name : String) (rec : List (String × Val))
    (h : dlookup (V2.buildFinal sq rosters season_stats game_logs todays_games
      standings) name = some rec) :
    (∃ c : ℤ, dlookup rec "confidence" = some (Val.num (c : ℚ))
      ∧ 30 ≤ c ∧ c ≤ 99
      ∧ (dlookup (V2.seasonMap season_stats) name = none → c = 50))
    ∧ (∀ u m s t cns, -20 ≤ V2.conf0 u m s t cns - 50
        ∧ V2.conf0 u m s t cns - 50 ≤ 49)
    ∧ (∀ u m s t cns, V2.confFinal u m s t cns
        = pyRound (V2.conf0 u m s t cns)) := by
  refine ⟨?_, fun u m s t cns => conf0_delta_bounds u m s t cns,
    fun u m s t cns => (confFinal_spec u m s t cns).2.2⟩
  rcases buildFinal_lookup h with ⟨tc, he, hn⟩ | ⟨tc, sr, hs, he⟩
  · subst he
    refine ⟨50, ?_, by omega, by omega, fun _ => rfl⟩
    rw [missingRecord_confidence]
    norm_num
  · subst he
    refine ⟨V2.recConfidence sq (V2.logsByName game_logs)
        (V2.opponentsMap todays_games) (V2.teamInfoMap standings)
        (V2.defRankMap standings) (V2.avg_pf standings) tc name sr,
      presentRecord_confidence _ _ _ _ _ _ _ _ _,
      (recConfidence_bounds _ _ _ _ _ _ _ _ _).1,
      (recConfidence_bounds _ _ _ _ _ _ _ _ _).2, ?_⟩
    intro hnone
    rw [hnone] at hs
    cases hs

/-- C10 witness: the sharper bounds applied to a one-player roster with an
empty season feed, where the confidence is exactly 50. -/
theorem C10_witness :
    (∃ c : ℤ, dlookup (V2.missingRecord "MIA") "confidence"
        = some (Val.num (c : ℚ))
      ∧ 30 ≤ c ∧ c ≤ 99
      ∧ (dlookup (V2.seasonMap []) "Dan" = none → c = 50))
    ∧ (∀ u m s t cns, -20 ≤ V2.conf0 u m s t cns - 50
        ∧ V2.conf0 u m s t cns - 50 ≤ 49)
    ∧ (∀ u m s t cns, V2.confFinal u m s t cns
        = pyRound (V2.conf0 u m s t cns)) :=
  C10_theorem id [("MIA", ["Dan"])] [] [] [] [] "Dan"
    (V2.missingRecord "MIA") rfl


/- SMI component lemmas and C2. -/

theorem smiOf_bounds (dr : Option ℕ) (pf : Option ℚ) (apf w : ℚ) :
    0 ≤ V2.smiOf dr pf apf w ∧ V2.smiOf dr pf apf w ≤ 1 := by
  unfold V2.smiOf
  exact ⟨le_clampQ _ _ _, clampQ_le (by norm_num)⟩

/-- C2 (amended): the emitted smi is always in [0, 1]; it is the clamp of
the weighted sum of the three components, where the defensive component
divides by the literal 29 (that is, it equals the spec formula
(rank - 1)/(N - 1) only when 30 teams are ranked) and the pace component is
neutral 0.5 not only when the opponent points-for is missing but also when
it is zero or when the league average is zero. -/
theorem C2_theorem :
    (∀ (sq : ℚ → ℚ) (rosters : List (String × List String))
      (season_stats : List V2.SeasonRaw) (game_logs : List V2.GameLog)
      (todays_games : List V2.Game2) (standings : List V2.Standing)
      (name : String) (rec : List (String × Val)),
      dlookup (V2.buildFinal sq rosters season_stats game_logs todays_games
        standings) name = some rec →
      ∃ s : ℚ, dlookup rec "smi" = some (Val.num s) ∧ 0 ≤ s ∧ s ≤ 1)
    ∧ (∀ (dr : Option ℕ) (pf : Option ℚ) (apf w : ℚ), V2.smiOf dr pf apf w
        = clampQ (0.4 * V2.defComponent dr + 0.3 * V2.paceComponent pf apf
          + 0.3 * (1 - w)) 0 1)
    ∧ (∀ r : ℕ, r ≠ 0 → V2.defComponent (some r) = ((r : ℚ) - 1) / 29)
    ∧ V2.defComponent none = 0.5
    ∧ (∀ (p apf : ℚ), p ≠ 0 → apf ≠ 0 →
        V2.paceComponent (some p) apf = (clampQ (p / apf) 0.5 1.5 - 0.5) / 1)
    ∧ (∀ apf : ℚ, V2.paceComponent none apf = 0.5)
    ∧ (∀ apf : ℚ, V2.paceComponent (some 0) apf = 0.5)
    ∧ (∀ p : ℚ, V2.paceComponent (some p) 0 = 0.5) := by
  refine ⟨?_, fun dr pf apf w => rfl, ?_, rfl, ?_, fun apf => rfl, ?_, ?_⟩
  · intro sq rosters season_stats game_logs todays_games standings name rec h
    rcases buildFinal_lookup h with ⟨tc, he, _⟩ | ⟨tc, sr, _, he⟩
    · subst he
      exact ⟨0.5, missingRecord_smi tc, by norm_num, by norm_num⟩
    · subst he
      refine ⟨V2.recSmi (V2.opponentsMap todays_games)
        (V2.teamInfoMap standings) (V2.defRankMap standings)
        (V2.avg_pf standings) tc, presentRecord_smi _ _ _ _ _ _ _ _ _, ?_, ?_⟩
      · exact (smiOf_bounds _ _ _ _).1
      · exact (smiOf_bounds _ _ _ _).2
  · intro r hr
    show (if r = 0 then (0.5 : ℚ) else ((r : ℚ) - 1) / 29) = ((r : ℚ) - 1) / 29
    rw [if_neg hr]
  · intro p apf hp hapf
    show (if p ≠ 0 ∧ apf ≠ 0 then (clampQ (p / apf) 0.5 1.5 - 0.5) / 1 else 0.5)
      = (clampQ (p / apf) 0.5 1.5 - 0.5) / 1
    rw [if_pos ⟨hp, hapf⟩]
  · intro apf
    show (if (0 : ℚ) ≠ 0 ∧ apf ≠ 0 then (clampQ ((0 : ℚ) / apf) 0.5 1.5 - 0.5) / 1 else 0.5)
      = 0.5
    rw [if_neg (fun hc => hc.1 rfl)]
  · intro p
    show (if p ≠ 0 ∧ (0 : ℚ) ≠ 0 then (clampQ (p / 0) 0.5 1.5 - 0.5) / 1 else 0.5)
      = 0.5
    rw [if_neg (fun hc => hc.2 rfl)]

/-- C2 counterexample: on standings that rank exactly two teams, the player
facing the second-ranked opponent is emitted with smi 91/290 (the code
divides the defensive rank by the literal 29), while the spec formula with
divisor N - 1 = 1 gives 7/10 at the same input. -/
theorem C2_counterexample :
    dlookup ((dlookup (V2.buildFinal id [("AAA", ["P"])] [srPlayerP] []
        gamesOne standingsTwo) "P").getD []) "smi"
      = some (Val.num (91/290))
    ∧ standingsTwo.length = 2
    ∧ dlookup (V2.defRankMap standingsTwo) "BBB" = some 2
    ∧ V2.smiSpec (some 2) standingsTwo.length (some 100)
        (V2.avg_pf standingsTwo) (1/2) = 7/10
    ∧ (91/290 : ℚ) ≠ 7/10 := by
  have hapf : V2.avg_pf standingsTwo = 100 := by
    norm_num [V2.avg_pf, standingsTwo, safe_div]
  have h1 : dlookup (V2.buildFinal id [("AAA", ["P"])] [srPlayerP] []
      gamesOne standingsTwo) "P"
      = some (V2.presentRecord id (V2.logsByName []) (V2.opponentsMap gamesOne)
        (V2.teamInfoMap standingsTwo) (V2.defRankMap standingsTwo)
        (V2.avg_pf standingsTwo) "AAA" "P" srPlayerP) := rfl
  have h2 : V2.recSmi (V2.opponentsMap gamesOne) (V2.teamInfoMap standingsTwo)
      (V2.defRankMap standingsTwo) (V2.avg_pf standingsTwo) "AAA"
      = V2.smiOf (some 2) (some 100) (V2.avg_pf standingsTwo) (1/2) := rfl
  have hsmi : V2.smiOf (some 2) (some 100) (100 : ℚ) (1/2) = 91/290 := by
    norm_num [V2.smiOf, V2.defComponent, V2.paceComponent, clampQ,
      min_def, max_def]
  have hspec : V2.smiSpec (some 2) 2 (some 100) (100 : ℚ) (1/2) = 7/10 := by
    norm_num [V2.smiSpec, clampQ, min_def, max_def]
  refine ⟨?_, rfl, rfl, ?_, by norm_num⟩
  · rw [h1]
    show dlookup (V2.presentRecord id (V2.logsByName []) (V2.opponentsMap gamesOne)
      (V2.teamInfoMap standingsTwo) (V2.defRankMap standingsTwo)
      (V2.avg_pf standingsTwo) "AAA" "P" srPlayerP) "smi"
      = some (Val.num (91/290))
    rw [presentRecord_smi, h2, hapf, hsmi]
  · rw [show standingsTwo.length = 2 from rfl, hapf]
    exact hspec

/-- C2 witness: the amended statement exercised on a missing-player record
and on the concrete components. -/
theorem C2_witness :
    (∃ s : ℚ, dlookup (V2.missingRecord "NOP") "smi" = some (Val.num s)
      ∧ 0 ≤ s ∧ s ≤ 1)
    ∧ V2.defComponent (some 2) = (((2 : ℕ) : ℚ) - 1) / 29
    ∧ V2.paceComponent none 3 = 0.5 := by
  have hT := C2_theorem
  exact ⟨hT.1 id [("NOP", ["Frank"])] [] [] [] [] "Frank"
      (V2.missingRecord "NOP") rfl,
    hT.2.2.1 2 (by decide), hT.2.2.2.2.2.1 3⟩

/-- C4 (amended): every roster player has a key in the output, and every
emitted record has either the 35 present-branch fields or the 20
missing-branch fields; the missing-branch field set is a strict subset of
the present-branch one (the last-5, trend, consistency and extended
opponent-context fields are simply absent for missing players, not null). -/
theorem C4_theorem (sq : ℚ → ℚ) (rosters : List (String × List String))
    (season_stats : List V2.SeasonRaw) (game_logs : List V2.GameLog)
    (todays_games : List V2.Game2) (standings : List V2.Standing) :
    (∀ tc ps name, (tc, ps) ∈ rosters → name ∈ ps →
      (dlookup (V2.buildFinal sq rosters season_stats game_logs todays_games
        standings) name).isSome)
    ∧ (∀ name rec, dlookup (V2.buildFinal sq rosters season_stats game_logs
        todays_games standings) name = some rec →
        rec.map Prod.fst = V2.presentKeys ∨ rec.map Prod.fst = V2.missingKeys)
    ∧ (∀ k ∈ V2.missingKeys, k ∈ V2.presentKeys)
    ∧ ("l5_pts" ∈ V2.presentKeys ∧ "l5_pts" ∉ V2.missingKeys) := by
  refine ⟨?_, ?_, by decide, by decide⟩
  · intro tc ps name hm hn
    exact buildFinal_covers hm hn
  · intro name rec h
    rcases buildFinal_lookup h with ⟨tc, he, _⟩ | ⟨tc, sr, _, he⟩
    · right
      rw [he]
      exact missingRecord_keys tc
    · left
      rw [he]
      exact presentRecord_keys _ _ _ _ _ _ _ _ _

/-- C4 counterexample: with one tracked and one untracked player on the
same roster, the untracked record carries only the 20 missing-branch keys
while the tracked record carries 35, so the field sets differ; in
particular l5_pts is present in one and absent from the other. -/
theorem C4_counterexample :
    ((dlookup (V2.buildFinal id [("BOS", ["Alice", "Bob"])] [srAlice] [] [] [])
      "Alice").getD []).map Prod.fst = V2.presentKeys
    ∧ ((dlookup (V2.buildFinal id [("BOS", ["Alice", "Bob"])] [srAlice] [] [] [])
      "Bob").getD []).map Prod.fst = V2.missingKeys
    ∧ "l5_pts" ∈ V2.presentKeys ∧ "l5_pts" ∉ V2.missingKeys
    ∧ V2.presentKeys ≠ V2.missingKeys :=
  ⟨rfl, rfl, by decide, by decide, by decide⟩

/-- C4 witness: the amended statement applied to a one-player roster. -/
theorem C4_witness :
    (dlookup (V2.buildFinal id [("PHX", ["Eve"])] [] [] [] []) "Eve").isSome
    ∧ (∀ k ∈ V2.missingKeys, k ∈ V2.presentKeys) := by
  have hT := C4_theorem id [("PHX", ["Eve"])] [] [] [] []
  exact ⟨hT.1 "PHX" ["Eve"] "Eve" (by decide) (by decide), hT.2.2.1⟩

/- Opponent map and null propagation lemmas for C9. -/

theorem opponentsMap_no_game_aux {tm : String} :
    ∀ (gs : List V2.Game2) (d : List (String × String)),
    dlookup d tm = none → (∀ g ∈ gs, g.HomeTeam ≠ tm ∧ g.AwayTeam ≠ tm) →
    dlookup (gs.foldl (fun m g =>
      dictInsert (dictInsert m g.HomeTeam g.AwayTeam) g.AwayTeam g.HomeTeam) d)
      tm = none := by
  intro gs
  induction gs with
  | nil => intro d hd _; exact hd
  | cons g rest ih =>
    intro d hd hall
    have hg := hall g (List.mem_cons_self _ _)
    apply ih
    · rw [dlookup_dictInsert_ne _ (Ne.symm hg.2),
        dlookup_dictInsert_ne _ (Ne.symm hg.1)]
      exact hd
    · intro g2 hg2
      exact hall g2 (List.mem_cons_of_mem _ hg2)

theorem opponentsMap_no_game {tm : String} (gs : List V2.Game2)
    (h : ∀ g ∈ gs, g.HomeTeam ≠ tm ∧ g.AwayTeam ≠ tm) :
    dlookup (V2.opponentsMap gs) tm = none :=
  opponentsMap_no_game_aux gs [] rfl h

theorem oppMapV1_no_game_aux {tm : String} :
    ∀ (gs : List V1.GameV1) (d : List (String × String)),
    dlookup d tm = none →
    (∀ g ∈ gs, truthy g.home_team ≠ some tm ∧ truthy g.away_team ≠ some tm) →
    dlookup (gs.foldl (fun m g =>
      match truthy g.home_team, truthy g.away_team with
      | some h, some a => dictInsert (dictInsert m h a) a h
      | _, _ => m) d) tm = none := by
  intro gs
  induction gs with
  | nil => intro d hd _; exact hd
  | cons g rest ih =>
    intro d hd hall
    have hg := hall g (List.mem_cons_self _ _)
    apply ih
    · show dlookup
        (match truthy g.home_team, truthy g.away_team with
          | some h, some a => dictInsert (dictInsert d h a) a h
          | _, _ => d) tm = none
      cases hh : truthy g.home_team with
      | none =>
        cases ha : truthy g.away_team with
        | none => exact hd
        | some a => exact hd
      | some hv =>
        cases ha : truthy g.away_team with
        | none => exact hd
        | some a =>
          have hv_ne : hv ≠ tm := by
            intro he
            apply hg.1
            rw [hh, he]
          have ha_ne : a ≠ tm := by
            intro he
            apply hg.2
            rw [ha, he]
          show dlookup (dictInsert (dictInsert d hv a) a hv) tm = none
          rw [dlookup_dictInsert_ne _ (Ne.symm ha_ne),
            dlookup_dictInsert_ne _ (Ne.symm hv_ne)]
          exact hd
    · intro g2 hg2
      exact hall g2 (List.mem_cons_of_mem _ hg2)

theorem oppMapV1_no_game {tm : String} (gs : List V1.GameV1)
    (h : ∀ g ∈ gs, truthy g.home_team ≠ some tm ∧ truthy g.away_team ≠ some tm) :
    dlookup (V1.opponent_map_of_games gs) tm = none :=
  oppMapV1_no_game_aux gs [] rfl h

theorem smiOf_neutral (apf : ℚ) : V2.smiOf none none apf 0.5 = 0.5 := by
  norm_num [V2.smiOf, V2.defComponent, V2.paceComponent, clampQ,
    min_def, max_def]

theorem recSmi_no_game {opponents : List (String × String)}
    {tInfo : List (String × V2.TeamInfo)} {dRank : List (String × ℕ)}
    {apf : ℚ} {tc : String} (h : dlookup opponents tc = none) :
    V2.recSmi opponents tInfo dRank apf tc = 0.5 := by
  unfold V2.recSmi
  rw [h]
  exact smiOf_neutral apf

theorem presentRecord_no_game {sq : ℚ → ℚ}
    {logsB : List (String × List V2.GameLog)}
    {opponents : List (String × String)} {tInfo : List (String × V2.TeamInfo)}
    {dRank : List (String × ℕ)} {apf : ℚ} {tc name : String}
    {sr : V2.SeasonRaw} (h : dlookup opponents tc = none) :
    dlookup (V2.presentRecord sq logsB opponents tInfo dRank apf tc name sr)
      "opponent" = some Val.null
    ∧ dlookup (V2.presentRecord sq logsB opponents tInfo dRank apf tc name sr)
      "def_rank" = some Val.null
    ∧ dlookup (V2.presentRecord sq logsB opponents tInfo dRank apf tc name sr)
      "smi" = some (Val.num 0.5) := by
  refine ⟨?_, ?_, ?_⟩
  · rw [presentRecord_opponent, h]
    rfl
  · rw [presentRecord_defRank, h]
    rfl
  · rw [presentRecord_smi, recSmi_no_game h]

theorem outFor_no_game {pl : List (String × V1.PlayerRaw)}
    {dt : List (String × V1.DefEntry)} {om : List (String × String)}
    {tc nm : String} (h : dlookup om tc = none) :
    dlookup (V1.outFor pl dt om tc nm) "opponent_team" = some Val.null
    ∧ dlookup (V1.outFor pl dt om tc nm) "opponent_defense_score" = some Val.null
    ∧ dlookup (V1.outFor pl dt om tc nm) "opponent_defense_tier" = some Val.null := by
  unfold V1.outFor
  rw [h]
  cases hp : dlookup pl nm with
  | none => exact ⟨rfl, rfl, rfl⟩
  | some p => exact ⟨rfl, rfl, rfl⟩

theorem buildFinal_lookup_team {sq : ℚ → ℚ}
    {rosters : List (String × List String)}
    {season_stats : List V2.SeasonRaw} {game_logs : List V2.GameLog}
    {todays_games : List V2.Game2} {standings : List V2.Standing}
    {name : String} {rec : List (String × Val)}
    (h : dlookup (V2.buildFinal sq rosters season_stats game_logs todays_games
      standings) name = some rec) :
    ∃ tc, rec = V2.recordFor sq (V2.seasonMap season_stats)
      (V2.logsByName game_logs) (V2.opponentsMap todays_games)
      (V2.teamInfoMap standings) (V2.defRankMap standings)
      (V2.avg_pf standings) tc name := by
  simp only [V2.buildFinal] at h
  rcases nested_fold_lookup _ rosters [] h with ⟨tc, he⟩ | hbad
  · exact ⟨tc, he⟩
  · rw [dlookup_nil] at hbad
    cases hbad

theorem recordFor_no_game {sq : ℚ → ℚ} {sbn : List (String × V2.SeasonRaw)}
    {logsB : List (String × List V2.GameLog)}
    {opponents : List (String × String)} {tInfo : List (String × V2.TeamInfo)}
    {dRank : List (String × ℕ)} {apf : ℚ} {tc nm : String}
    (h : dlookup opponents tc = none) :
    dlookup (V2.recordFor sq sbn logsB opponents tInfo dRank apf tc nm)
      "opponent" = some Val.null
    ∧ dlookup (V2.recordFor sq sbn logsB opponents tInfo dRank apf tc nm)
      "def_rank" = some Val.null
    ∧ dlookup (V2.recordFor sq sbn logsB opponents tInfo dRank apf tc nm)
      "smi" = some (Val.num 0.5) := by
  unfold V2.recordFor
  cases dlookup sbn nm with
  | none =>
    exact ⟨missingRecord_opponent tc, missingRecord_defRank tc,
      missingRecord_smi tc⟩
  | some sr => exact presentRecord_no_game h

/-- C9: the opponent map assigns at most one opponent per team and omits
every team without a game on the run date; every emitted record is the
record built for its roster team tc, and whenever that team has no game the
scripts variant emits null opponent and def_rank and the neutral smi 0.5,
and the other variant emits null opponent_team, opponent_defense_score and
opponent_defense_tier. -/
theorem C9_theorem :
    (∀ (gs : List V2.Game2) (tm o1 o2 : String),
      dlookup (V2.opponentsMap gs) tm = some o1 →
      dlookup (V2.opponentsMap gs) tm = some o2 → o1 = o2)
    ∧ (∀ (gs : List V2.Game2) (tm : String),
        (∀ g ∈ gs, g.HomeTeam ≠ tm ∧ g.AwayTeam ≠ tm) →
        dlookup (V2.opponentsMap gs) tm = none)
    ∧ (∀ (sq : ℚ → ℚ) (rosters : List (String × List String))
        (season_stats : List V2.SeasonRaw) (game_logs : List V2.GameLog)
        (gs : List V2.Game2) (standings : List V2.Standing)
        (name : String) (rec : List (String × Val)),
        dlookup (V2.buildFinal sq rosters season_stats game_logs gs standings)
          name = some rec →
        ∃ tc, rec = V2.recordFor sq (V2.seasonMap season_stats)
            (V2.logsByName game_logs) (V2.opponentsMap gs)
            (V2.teamInfoMap standings) (V2.defRankMap standings)
            (V2.avg_pf standings) tc name
          ∧ ((∀ g ∈ gs, g.HomeTeam ≠ tc ∧ g.AwayTeam ≠ tc) →
            dlookup rec "opponent" = some Val.null
            ∧ dlookup rec "def_rank" = some Val.null
            ∧ dlookup rec "smi" = some (Val.num 0.5)))
    ∧ (∀ (gs : List V1.GameV1) (tm : String),
        (∀ g ∈ gs, truthy g.home_team ≠ some tm
          ∧ truthy g.away_team ≠ some tm) →
        dlookup (V1.opponent_map_of_games gs) tm = none)
    ∧ (∀ (rosters : List (String × List String)) (raw : List V1.PlayerRaw)
        (dt : List (String × V1.DefEntry)) (om : List (String × String))
        (name : String) (rec : List (String × Val)),
        dlookup (V1.build_player_stats rosters raw dt om) name = some rec →
        ∃ tc, rec = V1.outFor (V1.playerLookupV1 raw) dt om tc name
          ∧ (dlookup om tc = none →
            dlookup rec "opponent_team" = some Val.null
            ∧ dlookup rec "opponent_defense_score" = some Val.null
            ∧ dlookup rec "opponent_defense_tier" = some Val.null)) := by
  refine ⟨?_, fun gs tm h => opponentsMap_no_game gs h, ?_,
    fun gs tm h => oppMapV1_no_game gs h, ?_⟩
  · intro gs tm o1 o2 h1 h2
    rw [h1] at h2
    exact Option.some_injective _ h2
  · intro sq rosters season_stats game_logs gs standings name rec h
    rcases buildFinal_lookup_team h with ⟨tc, he⟩
    refine ⟨tc, he, fun hng => ?_⟩
    rw [he]
    exact recordFor_no_game (opponentsMap_no_game gs hng)
  · intro rosters raw dt om name rec h
    rcases build_player_stats_lookup h with ⟨tc, he⟩
    refine ⟨tc, he, fun hn => ?_⟩
    rw [he]
    exact outFor_no_game hn

/-- C9 witness: on a day where only MIA plays NYK, the team BOS resolves to
no opponent; the record both builders emit for a BOS roster player is the
record built for the team BOS, with null and neutral matchup fields. -/
theorem C9_witness :
    dlookup (V2.opponentsMap gamesMia) "BOS" = none
    ∧ (∃ tc, V2.missingRecord "BOS" = V2.recordFor id (V2.seasonMap [])
          (V2.logsByName []) (V2.opponentsMap gamesMia) (V2.teamInfoMap [])
          (V2.defRankMap []) (V2.avg_pf []) tc "Gil"
        ∧ ((∀ g ∈ gamesMia, g.HomeTeam ≠ tc ∧ g.AwayTeam ≠ tc) →
          dlookup (V2.missingRecord "BOS") "opponent" = some Val.null
          ∧ dlookup (V2.missingRecord "BOS") "def_rank" = some Val.null
          ∧ dlookup (V2.missingRecord "BOS") "smi" = some (Val.num 0.5)))
    ∧ (∃ tc, V1.outFor (V1.playerLookupV1 []) [] [] "BOS" "Hank"
          = V1.outFor (V1.playerLookupV1 []) [] [] tc "Hank"
        ∧ (dlookup ([] : List (String × String)) tc = none →
          dlookup (V1.outFor (V1.playerLookupV1 []) [] [] "BOS" "Hank")
            "opponent_team" = some Val.null
          ∧ dlookup (V1.outFor (V1.playerLookupV1 []) [] [] "BOS" "Hank")
            "opponent_defense_score" = some Val.null
          ∧ dlookup (V1.outFor (V1.playerLookupV1 []) [] [] "BOS" "Hank")
            "opponent_defense_tier" = some Val.null)) := by
  have hT := C9_theorem
  refine ⟨hT.2.1 gamesMia "BOS" (by decide), ?_, ?_⟩
  · exact hT.2.2.1 id [("BOS", ["Gil"])] [] [] gamesMia [] "Gil"
      (V2.missingRecord "BOS") rfl
  · exact hT.2.2.2.2 [("BOS", ["Hank"])] [] [] [] "Hank"
      (V1.outFor (V1.playerLookupV1 []) [] [] "BOS" "Hank") rfl

end SpotStats
